import Mathlib

/-!
# DWIN serial display driver (`Marlin/src/lcd/e3v2/common/dwin_api.cpp`)

Shallow embedding of the frame encoders and of the handshake of the DWIN
display driver, and of the mesh check `BedLevelToolsClass::meshValidate` of
`Marlin/src/lcd/e3v2/proui/bedlevel_tools.cpp`.

* Bytes and words are natural numbers; a value stored into a `uint8_t` slot
  is reduced `% 256`.
* `DWIN_SendBuf` and `databuf` are memories indexed from the start of the
  array (`Nat → Nat`), so that a store past the declared size is visible
  instead of being dropped; every store index is also logged in `stores`.
* `LCD_SERIAL.write` appends to the `serial` trace; `LCD_SERIAL.read` pops the
  head of the reply stream and `LCD_SERIAL.available() > 0` holds while the
  stream is not empty.
* `delay`, `delayMicroseconds`, `LCD_SERIAL.begin` and the connect wait loop
  carry no data and are left out.
* The two `for (uint8_t n = 0; n < bound; ++n)` loops of `DWIN_Send` run on
  fuel: the counter wraps modulo 256, so for a bound above 255 the loop has no
  exit and every amount of fuel runs out.
* The cursor handed to `DWIN_Send` is a `size_t`: its increment wraps at
  `SIZE_MAX`.
-/

namespace Dwin

/-! ## Memory and state -/

/-- One store `mem[k] = v`. -/
def poke (mem : Nat → Nat) (k v : Nat) : Nat → Nat :=
  fun j => if j = k then v else mem j

/-- The driver's send side: buffer memory, the trace of store indices into the
buffer, and the trace of bytes handed to `LCD_SERIAL.write`. -/
structure Lcd where
  /-- `uint8_t DWIN_SendBuf[11 + DWIN_WIDTH / 6 * 2] = { 0xAA }`, by index. -/
  DWIN_SendBuf : Nat → Nat
  /-- Indices of `DWIN_SendBuf` stored to so far, oldest first. -/
  stores : List Nat
  /-- Bytes written to the serial link so far, oldest first. -/
  serial : List Nat

/-- Value of `sizeof(DWIN_SendBuf)` for a display `DWIN_WIDTH` pixels wide. -/
def SendBufSize (DWIN_WIDTH : Nat) : Nat := 11 + DWIN_WIDTH / 6 * 2

/-- Source: `uint8_t DWIN_BufTail[4] = { 0xCC, 0x33, 0xC3, 0x3C }`. -/
def DWIN_BufTail : List Nat := [0xCC, 0x33, 0xC3, 0x3C]

/-- Initial content of `DWIN_SendBuf`: `{ 0xAA }`, the rest zero. -/
def SendBuf_init : Nat → Nat := fun j => if j = 0 then 0xAA else 0

/-- State at program start. -/
def Lcd.init : Lcd := ⟨SendBuf_init, [], []⟩

/-! ## `DWIN_Send` -/

/-- The loop `for (uint8_t n = 0; n < bound; ++n) { LCD_SERIAL.write(src[n]); }`
from counter value `n` on, with the serial trace `out` so far. The counter is
eight bits wide, so `++n` is `(n + 1) % 256`. `none` when the fuel runs out. -/
def writeLoop (src : Nat → Nat) (bound : Nat) : Nat → Nat → List Nat → Option (List Nat)
  | 0, _, _ => none
  | fuel + 1, n, out =>
    if n < bound then writeLoop src bound fuel ((n + 1) % 256) (out ++ [src n])
    else some out

/-- Largest value of `size_t`, the type of the cursor. Its width belongs to
the target and is not fixed by these sources; it is taken as 32 bits. Nothing
below uses more of it than that it is at least 255. -/
def SIZE_MAX : Nat := 4294967295

/-- Source: `void DWIN_Send(size_t &i)`: increments the cursor, writes
`DWIN_SendBuf[0 .. i-1]`, then the four bytes of `DWIN_BufTail`. Returns the
new state and the cursor, which the caller holds by reference. The cursor is a
`size_t`, so `++i` at `SIZE_MAX` gives 0. -/
def DWIN_Send (fuel : Nat) (s : Lcd × Nat) : Option (Lcd × Nat) :=
  let i := (s.2 + 1) % (SIZE_MAX + 1)
  match writeLoop s.1.DWIN_SendBuf i fuel 0 s.1.serial with
  | none => none
  | some out =>
    match writeLoop (fun n => DWIN_BufTail.getD n 0) 4 fuel 0 out with
    | none => none
    | some out2 => some ({ s.1 with serial := out2 }, i)

/-! ## Field encoders (`dwin_api.h`) -/

/-- Modelled from the spec: `DWIN_Byte` of `dwin_api.h`, which is not among the
sources (§4.1 `append_byte`). The cursor is zero at the start of a command, the
header sits at offset 0 and the opcode follows it (§3, §4.2, §6), so the byte is
stored one past the cursor and the cursor advances by one. -/
def DWIN_Byte (s : Lcd × Nat) (bval : Nat) : Lcd × Nat :=
  let i := s.2 + 1
  ({ s.1 with DWIN_SendBuf := poke s.1.DWIN_SendBuf i (bval % 256),
              stores := s.1.stores ++ [i] }, i)

/-- Modelled from the spec: `DWIN_Word` of `dwin_api.h`, which is not among the
sources (§4.1 `append_word`, §6 "big-endian 16-bit words"): high byte, then
low byte, cursor advanced by two. -/
def DWIN_Word (s : Lcd × Nat) (wval : Nat) : Lcd × Nat :=
  DWIN_Byte (DWIN_Byte s (wval / 256)) (wval % 256)

/-- Modelled from the spec: `DWIN_Text` of `dwin_api.h`, which is not among the
sources (§4.1 `append_text`): the text is truncated "to the lesser of the
caller-supplied limit and remaining buffer capacity", and the cursor advances
by the number of bytes written. `string` holds the chars before the closing
NUL, so `strlen(string)` is its length; the remaining capacity is the number of
slots after the cursor. -/
def DWIN_Text (DWIN_WIDTH : Nat) (s : Lcd × Nat) (string : List Nat) (rlimit : Nat) :
    Lcd × Nat :=
  let len := min (SendBufSize DWIN_WIDTH - (s.2 + 1)) (min string.length rlimit)
  (string.take len).foldl
    (fun t ch => ({ t.1 with DWIN_SendBuf := poke t.1.DWIN_SendBuf (t.2 + 1) ch,
                             stores := t.1.stores ++ [t.2 + 1] }, t.2 + 1)) s

/-- Modelled from the spec: the macro `NOMORE(v, n)` of `macros.h`, which is
not among the sources (§4.4: a coordinate that exceeds the dimension is
clamped to `dimension − 1`): `if (n < v) v = n`, the comparison in `int`, the
assignment back into the `uint16_t` variable. -/
def NOMORE (v : Nat) (n : Int) : Nat :=
  if n < (v : Int) then (n % 65536).toNat else v

/-! ## Command encoders (`dwin_api.cpp`) -/

/-- Lines 58-60 of `DWIN_Handshake`: the query frame. -/
def DWIN_Handshake_query (fuel : Nat) (st : Lcd) : Option (Lcd × Nat) :=
  DWIN_Send fuel (DWIN_Byte (st, 0) 0x00)

/-- Source: `void DWIN_LCD_Brightness(const uint8_t brightness)`. -/
def DWIN_LCD_Brightness (fuel : Nat) (st : Lcd) (brightness : Nat) : Option (Lcd × Nat) :=
  DWIN_Send fuel (DWIN_Byte (DWIN_Byte (st, 0) 0x30) brightness)

/-- Source: `void DWIN_Frame_SetDir(uint8_t dir)`. -/
def DWIN_Frame_SetDir (fuel : Nat) (st : Lcd) (dir : Nat) : Option (Lcd × Nat) :=
  DWIN_Send fuel (DWIN_Byte (DWIN_Byte (DWIN_Byte (DWIN_Byte (st, 0) 0x34) 0x5A) 0xA5) dir)

/-- Source: `void DWIN_UpdateLCD()`. -/
def DWIN_UpdateLCD (fuel : Nat) (st : Lcd) : Option (Lcd × Nat) :=
  DWIN_Send fuel (DWIN_Byte (st, 0) 0x3D)

/-- Source: `void DWIN_Frame_Clear(const uint16_t color)`. -/
def DWIN_Frame_Clear (fuel : Nat) (st : Lcd) (color : Nat) : Option (Lcd × Nat) :=
  DWIN_Send fuel (DWIN_Word (DWIN_Byte (st, 0) 0x01) color)

/-- Source: `void DWIN_Draw_Point(uint16_t color, uint8_t width, uint8_t height,
uint16_t x, uint16_t y)`. -/
def DWIN_Draw_Point (fuel : Nat) (st : Lcd) (color width height x y : Nat) :
    Option (Lcd × Nat) :=
  let s := DWIN_Byte (st, 0) 0x02
  let s := DWIN_Word s color
  let s := DWIN_Byte s width
  let s := DWIN_Byte s height
  let s := DWIN_Word s x
  let s := DWIN_Word s y
  DWIN_Send fuel s

/-- Source: `void DWIN_Draw_Line(uint16_t color, uint16_t xStart, uint16_t yStart,
uint16_t xEnd, uint16_t yEnd)`. -/
def DWIN_Draw_Line (fuel : Nat) (st : Lcd) (color xStart yStart xEnd yEnd : Nat) :
    Option (Lcd × Nat) :=
  let s := DWIN_Byte (st, 0) 0x03
  let s := DWIN_Word s color
  let s := DWIN_Word s xStart
  let s := DWIN_Word s yStart
  let s := DWIN_Word s xEnd
  let s := DWIN_Word s yEnd
  DWIN_Send fuel s

/-- Source: `void DWIN_Draw_Rectangle(uint8_t mode, uint16_t color, uint16_t xStart,
uint16_t yStart, uint16_t xEnd, uint16_t yEnd)`. -/
def DWIN_Draw_Rectangle (fuel : Nat) (st : Lcd) (mode color xStart yStart xEnd yEnd : Nat) :
    Option (Lcd × Nat) :=
  let s := DWIN_Byte (st, 0) 0x05
  let s := DWIN_Byte s mode
  let s := DWIN_Word s color
  let s := DWIN_Word s xStart
  let s := DWIN_Word s yStart
  let s := DWIN_Word s xEnd
  let s := DWIN_Word s yEnd
  DWIN_Send fuel s

/-- Source: `void DWIN_Frame_AreaMove(uint8_t mode, uint8_t dir, uint16_t dis,
uint16_t color, uint16_t xStart, uint16_t yStart, uint16_t xEnd, uint16_t yEnd)`. -/
def DWIN_Frame_AreaMove (fuel : Nat) (st : Lcd)
    (mode dir dis color xStart yStart xEnd yEnd : Nat) : Option (Lcd × Nat) :=
  let s := DWIN_Byte (st, 0) 0x09
  let s := DWIN_Byte s ((mode <<< 7) ||| dir)
  let s := DWIN_Word s dis
  let s := DWIN_Word s color
  let s := DWIN_Word s xStart
  let s := DWIN_Word s yStart
  let s := DWIN_Word s xEnd
  let s := DWIN_Word s yEnd
  DWIN_Send fuel s

/-- Source: `DWIN_Draw_String` up to and including `DWIN_Text(i, string, rlimit)`:
the buffer and the cursor that are handed to `DWIN_Send`. -/
def DWIN_Draw_String_fill (DWIN_WIDTH : Nat) (st : Lcd) (bShow : Bool)
    (size color bColor x y : Nat) (string : List Nat) (rlimit : Nat) : Lcd × Nat :=
  let widthAdjust := 0
  let s := DWIN_Byte (st, 0) 0x11
  let s := DWIN_Byte s ((widthAdjust * 0x80) ||| (bShow.toNat * 0x40) ||| size)
  let s := DWIN_Word s color
  let s := DWIN_Word s bColor
  let s := DWIN_Word s x
  let s := DWIN_Word s y
  DWIN_Text DWIN_WIDTH s string rlimit

/-- Source: `void DWIN_Draw_String(bool bShow, uint8_t size, uint16_t color,
uint16_t bColor, uint16_t x, uint16_t y, const char * const string,
uint16_t rlimit)`. -/
def DWIN_Draw_String (DWIN_WIDTH fuel : Nat) (st : Lcd) (bShow : Bool)
    (size color bColor x y : Nat) (string : List Nat) (rlimit : Nat) : Option (Lcd × Nat) :=
  DWIN_Send fuel (DWIN_Draw_String_fill DWIN_WIDTH st bShow size color bColor x y string rlimit)

/-- Source: `void DWIN_JPG_ShowAndCache(const uint8_t id)`. -/
def DWIN_JPG_ShowAndCache (fuel : Nat) (st : Lcd) (id : Nat) : Option (Lcd × Nat) :=
  DWIN_Send fuel (DWIN_Byte (DWIN_Word (st, 0) 0x2200) id)

/-- Source: `void DWIN_ICON_Show(bool IBD, bool BIR, bool BFI, uint8_t libID,
uint8_t picID, uint16_t x, uint16_t y)`. -/
def DWIN_ICON_Show (DWIN_WIDTH DWIN_HEIGHT fuel : Nat) (st : Lcd) (IBD BIR BFI : Bool)
    (libID picID x y : Nat) : Option (Lcd × Nat) :=
  let x := NOMORE x ((DWIN_WIDTH : Int) - 1)
  let y := NOMORE y ((DWIN_HEIGHT : Int) - 1)
  let s := DWIN_Byte (st, 0) 0x23
  let s := DWIN_Word s x
  let s := DWIN_Word s y
  let s := DWIN_Byte s ((IBD.toNat <<< 7) ||| (BIR.toNat <<< 6) ||| (BFI.toNat <<< 5) ||| libID)
  let s := DWIN_Byte s picID
  DWIN_Send fuel s

/-- Source: `void DWIN_ICON_Show(bool IBD, bool BIR, bool BFI, uint16_t x, uint16_t y,
uint16_t addr)`, the overload that takes an SRAM address. -/
def DWIN_ICON_Show_addr (DWIN_WIDTH DWIN_HEIGHT fuel : Nat) (st : Lcd) (IBD BIR BFI : Bool)
    (x y addr : Nat) : Option (Lcd × Nat) :=
  let x := NOMORE x ((DWIN_WIDTH : Int) - 1)
  let y := NOMORE y ((DWIN_HEIGHT : Int) - 1)
  let s := DWIN_Byte (st, 0) 0x24
  let s := DWIN_Word s x
  let s := DWIN_Word s y
  let s := DWIN_Byte s ((IBD.toNat <<< 7) ||| (BIR.toNat <<< 6) ||| (BFI.toNat <<< 5) ||| 0x00)
  let s := DWIN_Word s addr
  DWIN_Send fuel s

/-- Source: `void DWIN_JPG_CacheToN(uint8_t n, uint8_t id)`. -/
def DWIN_JPG_CacheToN (fuel : Nat) (st : Lcd) (n id : Nat) : Option (Lcd × Nat) :=
  DWIN_Send fuel (DWIN_Byte (DWIN_Byte (DWIN_Byte (st, 0) 0x25) n) id)

/-- Source: `void DWIN_ICON_Animation(uint8_t animID, bool animate, uint8_t libID,
uint8_t picIDs, uint8_t picIDe, uint16_t x, uint16_t y, uint16_t interval)`. -/
def DWIN_ICON_Animation (DWIN_WIDTH DWIN_HEIGHT fuel : Nat) (st : Lcd) (animID : Nat)
    (animate : Bool) (libID picIDs picIDe x y interval : Nat) : Option (Lcd × Nat) :=
  let x := NOMORE x ((DWIN_WIDTH : Int) - 1)
  let y := NOMORE y ((DWIN_HEIGHT : Int) - 1)
  let s := DWIN_Byte (st, 0) 0x28
  let s := DWIN_Word s x
  let s := DWIN_Word s y
  let s := DWIN_Byte s ((animate.toNat * 0x80) ||| 0x40 ||| animID)
  let s := DWIN_Byte s libID
  let s := DWIN_Byte s picIDs
  let s := DWIN_Byte s picIDe
  let s := DWIN_Byte s interval
  DWIN_Send fuel s

/-- Source: `void DWIN_ICON_AnimationControl(uint16_t state)`. -/
def DWIN_ICON_AnimationControl (fuel : Nat) (st : Lcd) (state : Nat) : Option (Lcd × Nat) :=
  DWIN_Send fuel (DWIN_Word (DWIN_Byte (st, 0) 0x29) state)

/-! ## All commands -/

/-- One call of a command encoder with its arguments. -/
inductive Command where
  | Handshake_query
  | LCD_Brightness (brightness : Nat)
  | Frame_SetDir (dir : Nat)
  | UpdateLCD
  | Frame_Clear (color : Nat)
  | Draw_Point (color width height x y : Nat)
  | Draw_Line (color xStart yStart xEnd yEnd : Nat)
  | Draw_Rectangle (mode color xStart yStart xEnd yEnd : Nat)
  | Frame_AreaMove (mode dir dis color xStart yStart xEnd yEnd : Nat)
  | Draw_String (bShow : Bool) (size color bColor x y : Nat) (string : List Nat) (rlimit : Nat)
  | JPG_ShowAndCache (id : Nat)
  | ICON_Show (IBD BIR BFI : Bool) (libID picID x y : Nat)
  | ICON_Show_addr (IBD BIR BFI : Bool) (x y addr : Nat)
  | JPG_CacheToN (n id : Nat)
  | ICON_Animation (animID : Nat) (animate : Bool) (libID picIDs picIDe x y interval : Nat)
  | ICON_AnimationControl (state : Nat)

/-- Whether the command is the one with a variable-length text field. -/
def Command.isString : Command → Bool
  | .Draw_String .. => true
  | _ => false

/-- Runs the encoder the command names. -/
def Command.run (DWIN_WIDTH DWIN_HEIGHT fuel : Nat) (st : Lcd) : Command → Option (Lcd × Nat)
  | .Handshake_query => DWIN_Handshake_query fuel st
  | .LCD_Brightness b => DWIN_LCD_Brightness fuel st b
  | .Frame_SetDir dir => DWIN_Frame_SetDir fuel st dir
  | .UpdateLCD => DWIN_UpdateLCD fuel st
  | .Frame_Clear color => DWIN_Frame_Clear fuel st color
  | .Draw_Point color w h x y => DWIN_Draw_Point fuel st color w h x y
  | .Draw_Line color x0 y0 x1 y1 => DWIN_Draw_Line fuel st color x0 y0 x1 y1
  | .Draw_Rectangle mode color x0 y0 x1 y1 => DWIN_Draw_Rectangle fuel st mode color x0 y0 x1 y1
  | .Frame_AreaMove mode dir dis color x0 y0 x1 y1 =>
      DWIN_Frame_AreaMove fuel st mode dir dis color x0 y0 x1 y1
  | .Draw_String bShow size color bColor x y string rlimit =>
      DWIN_Draw_String DWIN_WIDTH fuel st bShow size color bColor x y string rlimit
  | .JPG_ShowAndCache id => DWIN_JPG_ShowAndCache fuel st id
  | .ICON_Show IBD BIR BFI libID picID x y =>
      DWIN_ICON_Show DWIN_WIDTH DWIN_HEIGHT fuel st IBD BIR BFI libID picID x y
  | .ICON_Show_addr IBD BIR BFI x y addr =>
      DWIN_ICON_Show_addr DWIN_WIDTH DWIN_HEIGHT fuel st IBD BIR BFI x y addr
  | .JPG_CacheToN n id => DWIN_JPG_CacheToN fuel st n id
  | .ICON_Animation animID animate libID picIDs picIDe x y interval =>
      DWIN_ICON_Animation DWIN_WIDTH DWIN_HEIGHT fuel st animID animate libID picIDs picIDe
        x y interval
  | .ICON_AnimationControl state => DWIN_ICON_AnimationControl fuel st state

/-! ## Handshake -/

/-- Modelled from the spec: the constant `FHONE` of `dwin_api.h`, which is not
among the sources: the sentinel `0xA5` that opens a handshake reply (§6,
Glossary). -/
def FHONE : Nat := 0xA5

/-- The receive side, which outlives a call: `static int recnum` and the global
`uint8_t databuf[26]`. `recnum` only ever counts up from zero. -/
structure Handshake where
  recnum : Nat
  databuf : Nat → Nat

/-- State at program start: `recnum = 0`, `databuf = { 0 }`. -/
def Handshake.init : Handshake := ⟨0, fun _ => 0⟩

/-- Modelled from the spec: the macro `ZERO(databuf)` of `macros.h`, which is
not among the sources (§4.3 "clear every slot"): the 26 bytes of the array
become zero. -/
def ZERO (databuf : Nat → Nat) : Nat → Nat :=
  fun j => if j < 26 then 0 else databuf j

/-- Body of the read loop, lines 64-74, for the byte `b` that
`LCD_SERIAL.read()` returns. -/
def readBody (b : Nat) (h : Handshake) : Handshake :=
  let databuf := poke h.databuf h.recnum b
  if databuf 0 ≠ FHONE then
    if h.recnum > 0 then ⟨0, ZERO databuf⟩ else ⟨h.recnum, databuf⟩
  else ⟨h.recnum + 1, databuf⟩

/-- The loop `while (LCD_SERIAL.available() > 0 && recnum < sizeof(databuf))`
over the bytes that the link still holds. Returns the state on exit and the
bytes left unread. -/
def readLoop : List Nat → Handshake → Handshake × List Nat
  | [], h => (h, [])
  | b :: rest, h =>
    if h.recnum < 26 then readLoop rest (readBody b h) else (h, b :: rest)

/-- The return expression of `DWIN_Handshake`, lines 77-81. -/
def handshakeResult (h : Handshake) : Bool :=
  decide (h.recnum ≥ 3) && h.databuf 0 == FHONE && h.databuf 1 == 0
    && h.databuf 2 == 0x4F && h.databuf 3 == 0x4B

/-- Source: `bool DWIN_Handshake()`: sends the query, reads the reply `stream`, and
returns the verdict with the states and the unread bytes. -/
def DWIN_Handshake (fuel : Nat) (st : Lcd) (h : Handshake) (stream : List Nat) :
    Option (Bool × Lcd × Handshake × List Nat) :=
  match DWIN_Handshake_query fuel st with
  | none => none
  | some (st2, _) =>
    let r := readLoop stream h
    some (handshakeResult r.1, st2, r.1, r.2)

/-! ## What one command puts on the wire -/

/-- The call result `r`, started in `st`, is a state in which the serial trace
grew by the frame `DWIN_SendBuf[0] :: body ++ DWIN_BufTail`, the slots
`1 .. body.length` were stored to in this order, slot 0 kept its value, and
the cursor ended one past the last byte of `body`. -/
def Emits (r : Option (Lcd × Nat)) (st : Lcd) (body : List Nat) : Prop :=
  ∃ st2 : Lcd, r = some (st2, body.length + 1)
    ∧ st2.serial = st.serial ++ (st.DWIN_SendBuf 0 :: (body ++ [0xCC, 0x33, 0xC3, 0x3C]))
    ∧ st2.stores = st.stores ++ List.range' 1 body.length
    ∧ st2.DWIN_SendBuf 0 = st.DWIN_SendBuf 0

/-- Number of text bytes that `DWIN_Text` copies at cursor 10, the cursor of
`DWIN_Draw_String` after the opcode, the flags and four words. -/
def textLen (DWIN_WIDTH : Nat) (string : List Nat) (rlimit : Nat) : Nat :=
  min (SendBufSize DWIN_WIDTH - 11) (min string.length rlimit)

/-- The call result `r`, started in `st`, is a state whose serial trace grew by
exactly the bytes of `frame`. -/
def Sends (r : Option (Lcd × Nat)) (st : Lcd) (frame : List Nat) : Prop :=
  ∃ (st2 : Lcd) (i : Nat), r = some (st2, i) ∧ st2.serial = st.serial ++ frame

/-- The verdict of a handshake call, when the call returns. -/
def handshakeVerdict (fuel : Nat) (st : Lcd) (h : Handshake) (stream : List Nat) :
    Option Bool :=
  (DWIN_Handshake fuel st h stream).map (fun r => r.1)

/-! ## Decoders, written from the payload layouts of the spec (§6) -/

/-- A big-endian 16-bit word from its two bytes. -/
def word_be (hi lo : Nat) : Nat := hi * 256 + lo

/-- Opcode 0x01, clear screen: `color:word`. -/
def decode_Frame_Clear : List Nat → Option Nat
  | [0xAA, 0x01, c1, c0, 0xCC, 0x33, 0xC3, 0x3C] => some (word_be c1 c0)
  | _ => none

/-- Opcode 0x02, draw point: `color:word, width:byte, height:byte, x:word,
y:word`. -/
def decode_Draw_Point : List Nat → Option (Nat × Nat × Nat × Nat × Nat)
  | [0xAA, 0x02, c1, c0, w, h, x1, x0, y1, y0, 0xCC, 0x33, 0xC3, 0x3C] =>
      some (word_be c1 c0, w, h, word_be x1 x0, word_be y1 y0)
  | _ => none

/-- Opcode 0x03, draw line: `color:word, x0:word, y0:word, x1:word, y1:word`. -/
def decode_Draw_Line : List Nat → Option (Nat × Nat × Nat × Nat × Nat)
  | [0xAA, 0x03, c1, c0, a1, a0, b1, b0, e1, e0, f1, f0, 0xCC, 0x33, 0xC3, 0x3C] =>
      some (word_be c1 c0, word_be a1 a0, word_be b1 b0, word_be e1 e0, word_be f1 f0)
  | _ => none

/-- Opcode 0x05, draw rectangle: `mode:byte, color:word, x0:word, y0:word,
x1:word, y1:word`. -/
def decode_Draw_Rectangle : List Nat → Option (Nat × Nat × Nat × Nat × Nat × Nat)
  | [0xAA, 0x05, m, c1, c0, a1, a0, b1, b0, e1, e0, f1, f0, 0xCC, 0x33, 0xC3, 0x3C] =>
      some (m, word_be c1 c0, word_be a1 a0, word_be b1 b0, word_be e1 e0, word_be f1 f0)
  | _ => none

/-- Opcode 0x09, area move: `(mode<<7|dir):byte, distance:word, color:word,
x0:word, y0:word, x1:word, y1:word`; mode is bit 7 of the flag byte, dir the
bits below it. -/
def decode_Frame_AreaMove :
    List Nat → Option (Nat × Nat × Nat × Nat × Nat × Nat × Nat × Nat)
  | [0xAA, 0x09, fl, d1, d0, c1, c0, a1, a0, b1, b0, e1, e0, f1, f0,
     0xCC, 0x33, 0xC3, 0x3C] =>
      some (fl >>> 7, fl &&& 0x7F, word_be d1 d0, word_be c1 c0, word_be a1 a0,
            word_be b1 b0, word_be e1 e0, word_be f1 f0)
  | _ => none

/-! ## Frames by command -/

/-- The bytes between the header and the tail that the command is to send,
from its arguments alone: opcode and fields in the order of the encoder. -/
def Command.body (DWIN_WIDTH DWIN_HEIGHT : Nat) : Command → List Nat
  | .Handshake_query => [0x00]
  | .LCD_Brightness b => [0x30, b % 256]
  | .Frame_SetDir dir => [0x34, 0x5A, 0xA5, dir % 256]
  | .UpdateLCD => [0x3D]
  | .Frame_Clear color => [0x01, color / 256 % 256, color % 256]
  | .Draw_Point color w h x y =>
      [0x02, color / 256 % 256, color % 256, w % 256, h % 256,
       x / 256 % 256, x % 256, y / 256 % 256, y % 256]
  | .Draw_Line color x0 y0 x1 y1 =>
      [0x03, color / 256 % 256, color % 256, x0 / 256 % 256, x0 % 256,
       y0 / 256 % 256, y0 % 256, x1 / 256 % 256, x1 % 256, y1 / 256 % 256, y1 % 256]
  | .Draw_Rectangle mode color x0 y0 x1 y1 =>
      [0x05, mode % 256, color / 256 % 256, color % 256, x0 / 256 % 256, x0 % 256,
       y0 / 256 % 256, y0 % 256, x1 / 256 % 256, x1 % 256, y1 / 256 % 256, y1 % 256]
  | .Frame_AreaMove mode dir dis color x0 y0 x1 y1 =>
      [0x09, ((mode <<< 7) ||| dir) % 256, dis / 256 % 256, dis % 256,
       color / 256 % 256, color % 256, x0 / 256 % 256, x0 % 256,
       y0 / 256 % 256, y0 % 256, x1 / 256 % 256, x1 % 256, y1 / 256 % 256, y1 % 256]
  | .Draw_String bShow size color bColor x y string rlimit =>
      [0x11, ((0 * 0x80) ||| (bShow.toNat * 0x40) ||| size) % 256,
       color / 256 % 256, color % 256, bColor / 256 % 256, bColor % 256,
       x / 256 % 256, x % 256, y / 256 % 256, y % 256]
        ++ string.take (textLen DWIN_WIDTH string rlimit)
  | .JPG_ShowAndCache id => [0x22, 0x00, id % 256]
  | .ICON_Show IBD BIR BFI libID picID x y =>
      [0x23, NOMORE x ((DWIN_WIDTH : Int) - 1) / 256 % 256,
       NOMORE x ((DWIN_WIDTH : Int) - 1) % 256,
       NOMORE y ((DWIN_HEIGHT : Int) - 1) / 256 % 256,
       NOMORE y ((DWIN_HEIGHT : Int) - 1) % 256,
       ((IBD.toNat <<< 7) ||| (BIR.toNat <<< 6) ||| (BFI.toNat <<< 5) ||| libID) % 256,
       picID % 256]
  | .ICON_Show_addr IBD BIR BFI x y addr =>
      [0x24, NOMORE x ((DWIN_WIDTH : Int) - 1) / 256 % 256,
       NOMORE x ((DWIN_WIDTH : Int) - 1) % 256,
       NOMORE y ((DWIN_HEIGHT : Int) - 1) / 256 % 256,
       NOMORE y ((DWIN_HEIGHT : Int) - 1) % 256,
       ((IBD.toNat <<< 7) ||| (BIR.toNat <<< 6) ||| (BFI.toNat <<< 5) ||| 0x00) % 256,
       addr / 256 % 256, addr % 256]
  | .JPG_CacheToN n id => [0x25, n % 256, id % 256]
  | .ICON_Animation animID animate libID picIDs picIDe x y interval =>
      [0x28, NOMORE x ((DWIN_WIDTH : Int) - 1) / 256 % 256,
       NOMORE x ((DWIN_WIDTH : Int) - 1) % 256,
       NOMORE y ((DWIN_HEIGHT : Int) - 1) / 256 % 256,
       NOMORE y ((DWIN_HEIGHT : Int) - 1) % 256,
       ((animate.toNat * 0x80) ||| 0x40 ||| animID) % 256,
       libID % 256, picIDs % 256, picIDe % 256, interval % 256]
  | .ICON_AnimationControl state => [0x29, state / 256 % 256, state % 256]

/-- Frame lengths in bytes, header and tail included, by command; the string
command has no fixed length. -/
def Command.frameLength : Command → Option Nat
  | .Handshake_query => some 6
  | .UpdateLCD => some 6
  | .LCD_Brightness .. => some 7
  | .Frame_Clear .. => some 8
  | .JPG_CacheToN .. => some 8
  | .JPG_ShowAndCache .. => some 8
  | .ICON_AnimationControl .. => some 8
  | .Frame_SetDir .. => some 9
  | .ICON_Show .. => some 12
  | .ICON_Show_addr .. => some 13
  | .Draw_Point .. => some 14
  | .ICON_Animation .. => some 15
  | .Draw_Line .. => some 16
  | .Draw_Rectangle .. => some 17
  | .Frame_AreaMove .. => some 19
  | .Draw_String .. => none

/-- A sequence of commands, one after the other on the same buffer and link. -/
def runCommands (DWIN_WIDTH DWIN_HEIGHT fuel : Nat) : List Command → Lcd → Option Lcd
  | [], st => some st
  | cmd :: rest, st =>
    match cmd.run DWIN_WIDTH DWIN_HEIGHT fuel st with
    | none => none
    | some (st2, _) => runCommands DWIN_WIDTH DWIN_HEIGHT fuel rest st2

/-! ## The handshake over several calls -/

/-- The states at the head of the read loop that pass the loop guard, in
order; at each of them the body stores the next byte at `databuf[recnum]`. -/
def readSteps : List Nat → Handshake → List Handshake
  | [], _ => []
  | b :: rest, h =>
    if h.recnum < 26 then h :: readSteps rest (readBody b h) else []

/-- The receive state after earlier calls of `DWIN_Handshake`, one reply
stream per call, oldest first. -/
def runCalls : List (List Nat) → Handshake → Handshake
  | [], h => h
  | s :: rest, h => runCalls rest (readLoop s h).1

/-- The condition under which the body takes its reset branch
`recnum = 0; ZERO(databuf);` for the byte `b`. -/
def resetTaken (b : Nat) (h : Handshake) : Bool :=
  decide (poke h.databuf h.recnum b 0 ≠ FHONE) && decide (h.recnum > 0)

/-- The return expression with the test `recnum >= 4` that the spec
recommends (§9) in place of `recnum >= 3`. -/
def handshakeResult_ge4 (h : Handshake) : Bool :=
  decide (h.recnum ≥ 4) && h.databuf 0 == FHONE && h.databuf 1 == 0
    && h.databuf 2 == 0x4F && h.databuf 3 == 0x4B

/-- The function `DWIN_Handshake` with the test `recnum >= 4`. -/
def DWIN_Handshake_ge4 (fuel : Nat) (st : Lcd) (h : Handshake) (stream : List Nat) :
    Option (Bool × Lcd × Handshake × List Nat) :=
  match DWIN_Handshake_query fuel st with
  | none => none
  | some (st2, _) =>
    let r := readLoop stream h
    some (handshakeResult_ge4 r.1, st2, r.1, r.2)

/-- What holds of the receive state between loop rounds: the count is within
the array, slot 0 holds the sentinel once a byte is captured, and the slots
that were not captured (slot 0 apart while nothing is captured) are zero. -/
def HandshakeInv (h : Handshake) : Prop :=
  h.recnum ≤ 26 ∧ (0 < h.recnum → h.databuf 0 = FHONE)
    ∧ ∀ k, 1 ≤ k → h.recnum ≤ k → h.databuf k = 0

/-! ## Mesh validation (`proui/bedlevel_tools.cpp`) -/

/-- Source: `isnan(v)` of `<math.h>`. A `float` is `none` when it is NaN and
`some a` when it is the number `a`; the numbers are of an ordered type. -/
def isnan {α : Type} (v : Option α) : Bool := v.isNone

/-- Source: `bool BedLevelToolsClass::meshValidate()`. `GRID_LOOP(x, y)` runs
`x` below `GRID_MAX_POINTS_X` and, inside, `y` below `GRID_MAX_POINTS_Y`; the
`return false` in the loop ends the scan at the first point that fails. The
macro `WITHIN` of `macros.h` is not among the sources and is an argument; the
two bounds are numbers. -/
def BedLevelToolsClass.meshValidate {α : Type} (GRID_MAX_POINTS_X GRID_MAX_POINTS_Y : Nat)
    (z_values : Nat → Nat → Option α) (WITHIN : Option α → α → α → Bool)
    (UBL_Z_OFFSET_MIN UBL_Z_OFFSET_MAX : α) : Bool :=
  (List.range GRID_MAX_POINTS_X).all fun x =>
    (List.range GRID_MAX_POINTS_Y).all fun y =>
      let v := z_values x y
      !(isnan v || !(WITHIN v UBL_Z_OFFSET_MIN UBL_Z_OFFSET_MAX))

/-- The closed-range test `lo <= v && v <= hi` on integers, false on NaN: one
function that `WITHIN` can stand for. -/
def closedRange (v : Option Int) (lo hi : Int) : Bool :=
  match v with
  | none => false
  | some a => decide (lo ≤ a) && decide (a ≤ hi)

/-- The receive state in which the return expression of `DWIN_Handshake` is
true and the four reply bytes are counted as captured. -/
def HandshakeGood (h : Handshake) : Prop :=
  4 ≤ h.recnum ∧ h.databuf 0 = FHONE ∧ h.databuf 1 = 0 ∧ h.databuf 2 = 0x4F
    ∧ h.databuf 3 = 0x4B

/-! ## Lemmas on `DWIN_Send` -/

theorem writeLoop_eq (src : Nat → Nat) (bound : Nat) (hb : bound ≤ 255) :
    ∀ (fuel n : Nat) (out : List Nat), n ≤ bound → bound - n < fuel →
      writeLoop src bound fuel n out
        = some (out ++ (List.range' n (bound - n)).map src) := by
  intro fuel
  induction fuel with
  | zero => intro n out _ h; omega
  | succ fuel ih =>
    intro n out hn hf
    unfold writeLoop
    by_cases hlt : n < bound
    · have hmod : (n + 1) % 256 = n + 1 := Nat.mod_eq_of_lt (by omega)
      have hsub : bound - n = (bound - (n + 1)) + 1 := by omega
      rw [if_pos hlt, hmod, ih (n + 1) _ (by omega) (by omega), hsub]
      simp [List.range'_succ]
    · have h0 : bound - n = 0 := by omega
      rw [if_neg hlt, h0]
      simp

theorem DWIN_Send_eq (fuel : Nat) (st : Lcd) (c : Nat) (hc : c ≤ 254) (hf : c + 2 ≤ fuel)
    (hf5 : 5 ≤ fuel) :
    DWIN_Send fuel (st, c)
      = some ({ st with serial := st.serial ++ (List.range (c + 1)).map st.DWIN_SendBuf
                                    ++ [0xCC, 0x33, 0xC3, 0x3C] }, c + 1) := by
  have hwrap : (c + 1) % (SIZE_MAX + 1) = c + 1 :=
    Nat.mod_eq_of_lt (by unfold SIZE_MAX; omega)
  unfold DWIN_Send
  simp only [hwrap]
  rw [writeLoop_eq _ (c + 1) (by omega) fuel 0 _ (by omega) (by omega)]
  simp only []
  rw [writeLoop_eq _ 4 (by omega) fuel 0 _ (by omega) (by omega)]
  simp [List.range_eq_range', List.range'_succ, DWIN_BufTail]



theorem DWIN_Send_pair (fuel : Nat) (s : Lcd × Nat) (hc : s.2 ≤ 254) (hf : s.2 + 2 ≤ fuel)
    (hf5 : 5 ≤ fuel) :
    DWIN_Send fuel s
      = some ({ s.1 with serial := s.1.serial ++ (List.range (s.2 + 1)).map s.1.DWIN_SendBuf
                                    ++ [0xCC, 0x33, 0xC3, 0x3C] }, s.2 + 1) :=
  DWIN_Send_eq fuel s.1 s.2 hc hf hf5

/-! ## Frames of the fixed-length encoders -/

theorem DWIN_Handshake_query_emits (fuel : Nat) (st : Lcd) (hf : 256 ≤ fuel) :
    Emits (DWIN_Handshake_query fuel st) st [0x00] := by
  simp only [Emits, DWIN_Handshake_query]
  rw [DWIN_Send_pair _ _ (by simp [DWIN_Word, DWIN_Byte])
    (by simp [DWIN_Word, DWIN_Byte]; omega) (by omega)]
  refine ⟨_, rfl, ?_, ?_, ?_⟩ <;> simp [DWIN_Word, DWIN_Byte, poke, List.range_succ, List.range'_succ]

theorem DWIN_LCD_Brightness_emits (fuel : Nat) (st : Lcd) (brightness : Nat) (hf : 256 ≤ fuel) :
    Emits (DWIN_LCD_Brightness fuel st brightness) st [0x30, brightness % 256] := by
  simp only [Emits, DWIN_LCD_Brightness]
  rw [DWIN_Send_pair _ _ (by simp [DWIN_Word, DWIN_Byte])
    (by simp [DWIN_Word, DWIN_Byte]; omega) (by omega)]
  refine ⟨_, rfl, ?_, ?_, ?_⟩ <;> simp [DWIN_Word, DWIN_Byte, poke, List.range_succ, List.range'_succ]

theorem DWIN_Frame_SetDir_emits (fuel : Nat) (st : Lcd) (dir : Nat) (hf : 256 ≤ fuel) :
    Emits (DWIN_Frame_SetDir fuel st dir) st [0x34, 0x5A, 0xA5, dir % 256] := by
  simp only [Emits, DWIN_Frame_SetDir]
  rw [DWIN_Send_pair _ _ (by simp [DWIN_Word, DWIN_Byte])
    (by simp [DWIN_Word, DWIN_Byte]; omega) (by omega)]
  refine ⟨_, rfl, ?_, ?_, ?_⟩ <;> simp [DWIN_Word, DWIN_Byte, poke, List.range_succ, List.range'_succ]

theorem DWIN_UpdateLCD_emits (fuel : Nat) (st : Lcd) (hf : 256 ≤ fuel) :
    Emits (DWIN_UpdateLCD fuel st) st [0x3D] := by
  simp only [Emits, DWIN_UpdateLCD]
  rw [DWIN_Send_pair _ _ (by simp [DWIN_Word, DWIN_Byte])
    (by simp [DWIN_Word, DWIN_Byte]; omega) (by omega)]
  refine ⟨_, rfl, ?_, ?_, ?_⟩ <;> simp [DWIN_Word, DWIN_Byte, poke, List.range_succ, List.range'_succ]

theorem DWIN_Frame_Clear_emits (fuel : Nat) (st : Lcd) (color : Nat) (hf : 256 ≤ fuel) :
    Emits (DWIN_Frame_Clear fuel st color) st [0x01, color / 256 % 256, color % 256] := by
  simp only [Emits, DWIN_Frame_Clear]
  rw [DWIN_Send_pair _ _ (by simp [DWIN_Word, DWIN_Byte])
    (by simp [DWIN_Word, DWIN_Byte]; omega) (by omega)]
  refine ⟨_, rfl, ?_, ?_, ?_⟩ <;> simp [DWIN_Word, DWIN_Byte, poke, List.range_succ, List.range'_succ]

theorem DWIN_Draw_Point_emits (fuel : Nat) (st : Lcd) (color width height x y : Nat)
    (hf : 256 ≤ fuel) :
    Emits (DWIN_Draw_Point fuel st color width height x y) st
      [0x02, color / 256 % 256, color % 256, width % 256, height % 256,
       x / 256 % 256, x % 256, y / 256 % 256, y % 256] := by
  simp only [Emits, DWIN_Draw_Point]
  rw [DWIN_Send_pair _ _ (by simp [DWIN_Word, DWIN_Byte])
    (by simp [DWIN_Word, DWIN_Byte]; omega) (by omega)]
  refine ⟨_, rfl, ?_, ?_, ?_⟩ <;> simp [DWIN_Word, DWIN_Byte, poke, List.range_succ, List.range'_succ]

theorem DWIN_Draw_Line_emits (fuel : Nat) (st : Lcd) (color xStart yStart xEnd yEnd : Nat)
    (hf : 256 ≤ fuel) :
    Emits (DWIN_Draw_Line fuel st color xStart yStart xEnd yEnd) st
      [0x03, color / 256 % 256, color % 256, xStart / 256 % 256, xStart % 256,
       yStart / 256 % 256, yStart % 256, xEnd / 256 % 256, xEnd % 256,
       yEnd / 256 % 256, yEnd % 256] := by
  simp only [Emits, DWIN_Draw_Line]
  rw [DWIN_Send_pair _ _ (by simp [DWIN_Word, DWIN_Byte])
    (by simp [DWIN_Word, DWIN_Byte]; omega) (by omega)]
  refine ⟨_, rfl, ?_, ?_, ?_⟩ <;> simp [DWIN_Word, DWIN_Byte, poke, List.range_succ, List.range'_succ]

theorem DWIN_Draw_Rectangle_emits (fuel : Nat) (st : Lcd)
    (mode color xStart yStart xEnd yEnd : Nat) (hf : 256 ≤ fuel) :
    Emits (DWIN_Draw_Rectangle fuel st mode color xStart yStart xEnd yEnd) st
      [0x05, mode % 256, color / 256 % 256, color % 256, xStart / 256 % 256, xStart % 256,
       yStart / 256 % 256, yStart % 256, xEnd / 256 % 256, xEnd % 256,
       yEnd / 256 % 256, yEnd % 256] := by
  simp only [Emits, DWIN_Draw_Rectangle]
  rw [DWIN_Send_pair _ _ (by simp [DWIN_Word, DWIN_Byte])
    (by simp [DWIN_Word, DWIN_Byte]; omega) (by omega)]
  refine ⟨_, rfl, ?_, ?_, ?_⟩ <;> simp [DWIN_Word, DWIN_Byte, poke, List.range_succ, List.range'_succ]

theorem DWIN_Frame_AreaMove_emits (fuel : Nat) (st : Lcd)
    (mode dir dis color xStart yStart xEnd yEnd : Nat) (hf : 256 ≤ fuel) :
    Emits (DWIN_Frame_AreaMove fuel st mode dir dis color xStart yStart xEnd yEnd) st
      [0x09, ((mode <<< 7) ||| dir) % 256, dis / 256 % 256, dis % 256,
       color / 256 % 256, color % 256, xStart / 256 % 256, xStart % 256,
       yStart / 256 % 256, yStart % 256, xEnd / 256 % 256, xEnd % 256,
       yEnd / 256 % 256, yEnd % 256] := by
  simp only [Emits, DWIN_Frame_AreaMove]
  rw [DWIN_Send_pair _ _ (by simp [DWIN_Word, DWIN_Byte])
    (by simp [DWIN_Word, DWIN_Byte]; omega) (by omega)]
  refine ⟨_, rfl, ?_, ?_, ?_⟩ <;> simp [DWIN_Word, DWIN_Byte, poke, List.range_succ, List.range'_succ]

theorem DWIN_JPG_ShowAndCache_emits (fuel : Nat) (st : Lcd) (id : Nat) (hf : 256 ≤ fuel) :
    Emits (DWIN_JPG_ShowAndCache fuel st id) st [0x22, 0x00, id % 256] := by
  simp only [Emits, DWIN_JPG_ShowAndCache]
  rw [DWIN_Send_pair _ _ (by simp [DWIN_Word, DWIN_Byte])
    (by simp [DWIN_Word, DWIN_Byte]; omega) (by omega)]
  refine ⟨_, rfl, ?_, ?_, ?_⟩ <;> simp [DWIN_Word, DWIN_Byte, poke, List.range_succ, List.range'_succ]

theorem DWIN_ICON_Show_emits (W H fuel : Nat) (st : Lcd) (IBD BIR BFI : Bool)
    (libID picID x y : Nat) (hf : 256 ≤ fuel) :
    Emits (DWIN_ICON_Show W H fuel st IBD BIR BFI libID picID x y) st
      [0x23, NOMORE x ((W : Int) - 1) / 256 % 256, NOMORE x ((W : Int) - 1) % 256,
       NOMORE y ((H : Int) - 1) / 256 % 256, NOMORE y ((H : Int) - 1) % 256,
       ((IBD.toNat <<< 7) ||| (BIR.toNat <<< 6) ||| (BFI.toNat <<< 5) ||| libID) % 256,
       picID % 256] := by
  simp only [Emits, DWIN_ICON_Show]
  rw [DWIN_Send_pair _ _ (by simp [DWIN_Word, DWIN_Byte])
    (by simp [DWIN_Word, DWIN_Byte]; omega) (by omega)]
  refine ⟨_, rfl, ?_, ?_, ?_⟩ <;> simp [DWIN_Word, DWIN_Byte, poke, List.range_succ, List.range'_succ]

theorem DWIN_ICON_Show_addr_emits (W H fuel : Nat) (st : Lcd) (IBD BIR BFI : Bool)
    (x y addr : Nat) (hf : 256 ≤ fuel) :
    Emits (DWIN_ICON_Show_addr W H fuel st IBD BIR BFI x y addr) st
      [0x24, NOMORE x ((W : Int) - 1) / 256 % 256, NOMORE x ((W : Int) - 1) % 256,
       NOMORE y ((H : Int) - 1) / 256 % 256, NOMORE y ((H : Int) - 1) % 256,
       ((IBD.toNat <<< 7) ||| (BIR.toNat <<< 6) ||| (BFI.toNat <<< 5) ||| 0x00) % 256,
       addr / 256 % 256, addr % 256] := by
  simp only [Emits, DWIN_ICON_Show_addr]
  rw [DWIN_Send_pair _ _ (by simp [DWIN_Word, DWIN_Byte])
    (by simp [DWIN_Word, DWIN_Byte]; omega) (by omega)]
  refine ⟨_, rfl, ?_, ?_, ?_⟩ <;> simp [DWIN_Word, DWIN_Byte, poke, List.range_succ, List.range'_succ]

theorem DWIN_JPG_CacheToN_emits (fuel : Nat) (st : Lcd) (n id : Nat) (hf : 256 ≤ fuel) :
    Emits (DWIN_JPG_CacheToN fuel st n id) st [0x25, n % 256, id % 256] := by
  simp only [Emits, DWIN_JPG_CacheToN]
  rw [DWIN_Send_pair _ _ (by simp [DWIN_Word, DWIN_Byte])
    (by simp [DWIN_Word, DWIN_Byte]; omega) (by omega)]
  refine ⟨_, rfl, ?_, ?_, ?_⟩ <;> simp [DWIN_Word, DWIN_Byte, poke, List.range_succ, List.range'_succ]

theorem DWIN_ICON_Animation_emits (W H fuel : Nat) (st : Lcd) (animID : Nat) (animate : Bool)
    (libID picIDs picIDe x y interval : Nat) (hf : 256 ≤ fuel) :
    Emits (DWIN_ICON_Animation W H fuel st animID animate libID picIDs picIDe x y interval) st
      [0x28, NOMORE x ((W : Int) - 1) / 256 % 256, NOMORE x ((W : Int) - 1) % 256,
       NOMORE y ((H : Int) - 1) / 256 % 256, NOMORE y ((H : Int) - 1) % 256,
       ((animate.toNat * 0x80) ||| 0x40 ||| animID) % 256,
       libID % 256, picIDs % 256, picIDe % 256, interval % 256] := by
  simp only [Emits, DWIN_ICON_Animation]
  rw [DWIN_Send_pair _ _ (by simp [DWIN_Word, DWIN_Byte])
    (by simp [DWIN_Word, DWIN_Byte]; omega) (by omega)]
  refine ⟨_, rfl, ?_, ?_, ?_⟩ <;> simp [DWIN_Word, DWIN_Byte, poke, List.range_succ, List.range'_succ]

theorem DWIN_ICON_AnimationControl_emits (fuel : Nat) (st : Lcd) (state : Nat)
    (hf : 256 ≤ fuel) :
    Emits (DWIN_ICON_AnimationControl fuel st state) st
      [0x29, state / 256 % 256, state % 256] := by
  simp only [Emits, DWIN_ICON_AnimationControl]
  rw [DWIN_Send_pair _ _ (by simp [DWIN_Word, DWIN_Byte])
    (by simp [DWIN_Word, DWIN_Byte]; omega) (by omega)]
  refine ⟨_, rfl, ?_, ?_, ?_⟩ <;> simp [DWIN_Word, DWIN_Byte, poke, List.range_succ, List.range'_succ]

/-! ## The text field -/

/-- One `memcpy` byte of `DWIN_Text`. -/
theorem textFold_spec (l : List Nat) :
    ∀ s : Lcd × Nat,
      let t := l.foldl
        (fun t ch => (({ t.1 with DWIN_SendBuf := poke t.1.DWIN_SendBuf (t.2 + 1) ch,
                                  stores := t.1.stores ++ [t.2 + 1] } : Lcd), t.2 + 1)) s
      t.2 = s.2 + l.length
        ∧ t.1.serial = s.1.serial
        ∧ t.1.stores = s.1.stores ++ List.range' (s.2 + 1) l.length
        ∧ (∀ j, j ≤ s.2 → t.1.DWIN_SendBuf j = s.1.DWIN_SendBuf j)
        ∧ (List.range (t.2 + 1)).map t.1.DWIN_SendBuf
            = (List.range (s.2 + 1)).map s.1.DWIN_SendBuf ++ l := by
  induction l with
  | nil => intro s; simp
  | cons ch l ih =>
    intro s
    have h := ih (({ s.1 with DWIN_SendBuf := poke s.1.DWIN_SendBuf (s.2 + 1) ch,
                              stores := s.1.stores ++ [s.2 + 1] } : Lcd), s.2 + 1)
    simp only [List.foldl_cons, List.length_cons] at h ⊢
    obtain ⟨h1, h2, h3, h4, h5⟩ := h
    refine ⟨by omega, h2, ?_, ?_, ?_⟩
    · rw [h3]; simp [List.range'_succ]
    · intro j hj
      rw [h4 j (by omega)]
      simp only [poke]
      rw [if_neg (by omega)]
    · rw [h5, List.range_succ (s.2 + 1), List.map_append]
      have hpre : (List.range (s.2 + 1)).map (poke s.1.DWIN_SendBuf (s.2 + 1) ch)
          = (List.range (s.2 + 1)).map s.1.DWIN_SendBuf := by
        apply List.map_congr_left
        intro j hj
        have : j < s.2 + 1 := List.mem_range.mp hj
        simp only [poke]
        rw [if_neg (by omega)]
      rw [hpre]
      simp [poke]

theorem range'_one_ten (n : Nat) :
    List.range' 1 (10 + n) = 1 :: 2 :: 3 :: 4 :: 5 :: 6 :: 7 :: 8 :: 9 :: 10 :: List.range' 11 n := by
  rw [Nat.add_comm]
  rfl

theorem DWIN_Draw_String_fill_spec (W : Nat) (st : Lcd) (bShow : Bool)
    (size color bColor x y : Nat) (string : List Nat) (rlimit : Nat) :
    let t := DWIN_Draw_String_fill W st bShow size color bColor x y string rlimit
    t.2 = 10 + textLen W string rlimit
      ∧ t.1.serial = st.serial
      ∧ t.1.stores = st.stores ++ List.range' 1 (10 + textLen W string rlimit)
      ∧ t.1.DWIN_SendBuf 0 = st.DWIN_SendBuf 0
      ∧ (List.range (t.2 + 1)).map t.1.DWIN_SendBuf
          = st.DWIN_SendBuf 0 ::
            [0x11, ((0 * 0x80) ||| (bShow.toNat * 0x40) ||| size) % 256,
             color / 256 % 256, color % 256, bColor / 256 % 256, bColor % 256,
             x / 256 % 256, x % 256, y / 256 % 256, y % 256]
            ++ string.take (textLen W string rlimit) := by
  have h := textFold_spec (string.take (textLen W string rlimit))
    (DWIN_Word (DWIN_Word (DWIN_Word (DWIN_Word (DWIN_Byte (DWIN_Byte (st, 0) 0x11)
      ((0 * 0x80) ||| (bShow.toNat * 0x40) ||| size)) color) bColor) x) y)
  have hlen : (string.take (textLen W string rlimit)).length = textLen W string rlimit := by
    rw [List.length_take]; unfold textLen; omega
  simp only [] at h
  rw [hlen] at h
  obtain ⟨h1, h2, h3, h4, h5⟩ := h
  simp only [DWIN_Draw_String_fill, DWIN_Text]
  refine ⟨?_, ?_, ?_, ?_, ?_⟩
  · simpa [DWIN_Word, DWIN_Byte, textLen] using h1
  · simpa [DWIN_Word, DWIN_Byte, textLen] using h2
  · have := h3
    simp only [DWIN_Word, DWIN_Byte, textLen] at this ⊢
    rw [this]
    simp [range'_one_ten]
  · have := h4 0 (by simp)
    simpa [DWIN_Word, DWIN_Byte, textLen, poke] using this
  · have := h5
    simp only [DWIN_Word, DWIN_Byte, textLen] at this ⊢
    rw [this]
    simp [poke, List.range_succ]

theorem DWIN_Draw_String_emits (W fuel : Nat) (st : Lcd) (bShow : Bool)
    (size color bColor x y : Nat) (string : List Nat) (rlimit : Nat)
    (hW : SendBufSize W ≤ 255) (hf : 256 ≤ fuel) :
    Emits (DWIN_Draw_String W fuel st bShow size color bColor x y string rlimit) st
      ([0x11, ((0 * 0x80) ||| (bShow.toNat * 0x40) ||| size) % 256,
        color / 256 % 256, color % 256, bColor / 256 % 256, bColor % 256,
        x / 256 % 256, x % 256, y / 256 % 256, y % 256]
        ++ string.take (textLen W string rlimit)) := by
  have h := DWIN_Draw_String_fill_spec W st bShow size color bColor x y string rlimit
  simp only [] at h
  obtain ⟨h1, h2, h3, h4, h5⟩ := h
  have hlen : (string.take (textLen W string rlimit)).length = textLen W string rlimit := by
    rw [List.length_take]; unfold textLen; omega
  have hle : textLen W string rlimit ≤ SendBufSize W - 11 := by unfold textLen; omega
  have hcap : 11 ≤ SendBufSize W := by unfold SendBufSize; omega
  have hbl : ([0x11, ((0 * 0x80) ||| (bShow.toNat * 0x40) ||| size) % 256,
        color / 256 % 256, color % 256, bColor / 256 % 256, bColor % 256,
        x / 256 % 256, x % 256, y / 256 % 256, y % 256]
        ++ string.take (textLen W string rlimit)).length
      = (DWIN_Draw_String_fill W st bShow size color bColor x y string rlimit).2 := by
    rw [h1, List.length_append, hlen]
    rfl
  simp only [Emits, DWIN_Draw_String, hbl]
  rw [DWIN_Send_pair _ _ (by omega) (by omega) (by omega)]
  refine ⟨_, rfl, ?_, ?_, ?_⟩
  · simp only [h5, h2]
    simp
  · simp only [h3, h1]
  · exact h4

/-! ## Claims C1 and C2 -/

theorem Emits.sends {r : Option (Lcd × Nat)} {st : Lcd} {body : List Nat}
    (h : Emits r st body) :
    Sends r st (st.DWIN_SendBuf 0 :: (body ++ [0xCC, 0x33, 0xC3, 0x3C])) := by
  obtain ⟨st2, h1, h2, _, _⟩ := h
  exact ⟨st2, _, h1, h2⟩

theorem Emits.framed {r : Option (Lcd × Nat)} {st : Lcd} {body : List Nat}
    (h : Emits r st body) (h0 : st.DWIN_SendBuf 0 = 0xAA) :
    ∃ body2 : List Nat, Sends r st (0xAA :: (body2 ++ [0xCC, 0x33, 0xC3, 0x3C])) :=
  ⟨body, h0 ▸ h.sends⟩

/-- C1: every command encoder, for every argument, puts on the serial link a
byte sequence that starts with 0xAA and ends with 0xCC 0x33 0xC3 0x3C, given
that `DWIN_SendBuf[0]` holds 0xAA. The send loops need fuel for at most 256
rounds; for the string command the buffer size must not exceed 255, so that
the 8-bit loop counter of `DWIN_Send` reaches the cursor. -/
theorem frame_header_and_tail (W H fuel : Nat) (st : Lcd) (cmd : Command)
    (h0 : st.DWIN_SendBuf 0 = 0xAA) (hf : 256 ≤ fuel)
    (hW : cmd.isString = true → SendBufSize W ≤ 255) :
    ∃ body : List Nat,
      Sends (cmd.run W H fuel st) st (0xAA :: (body ++ [0xCC, 0x33, 0xC3, 0x3C])) := by
  cases cmd with
  | Handshake_query => exact (DWIN_Handshake_query_emits fuel st hf).framed h0
  | LCD_Brightness b => exact (DWIN_LCD_Brightness_emits fuel st b hf).framed h0
  | Frame_SetDir dir => exact (DWIN_Frame_SetDir_emits fuel st dir hf).framed h0
  | UpdateLCD => exact (DWIN_UpdateLCD_emits fuel st hf).framed h0
  | Frame_Clear color => exact (DWIN_Frame_Clear_emits fuel st color hf).framed h0
  | Draw_Point color w h x y => exact (DWIN_Draw_Point_emits fuel st color w h x y hf).framed h0
  | Draw_Line color a b c d => exact (DWIN_Draw_Line_emits fuel st color a b c d hf).framed h0
  | Draw_Rectangle m color a b c d =>
    exact (DWIN_Draw_Rectangle_emits fuel st m color a b c d hf).framed h0
  | Frame_AreaMove m dir dis color a b c d =>
    exact (DWIN_Frame_AreaMove_emits fuel st m dir dis color a b c d hf).framed h0
  | Draw_String bShow size color bColor x y string rlimit =>
    exact (DWIN_Draw_String_emits W fuel st bShow size color bColor x y string rlimit
      (hW rfl) hf).framed h0
  | JPG_ShowAndCache id => exact (DWIN_JPG_ShowAndCache_emits fuel st id hf).framed h0
  | ICON_Show IBD BIR BFI libID picID x y =>
    exact (DWIN_ICON_Show_emits W H fuel st IBD BIR BFI libID picID x y hf).framed h0
  | ICON_Show_addr IBD BIR BFI x y addr =>
    exact (DWIN_ICON_Show_addr_emits W H fuel st IBD BIR BFI x y addr hf).framed h0
  | JPG_CacheToN n id => exact (DWIN_JPG_CacheToN_emits fuel st n id hf).framed h0
  | ICON_Animation animID animate libID picIDs picIDe x y interval =>
    exact (DWIN_ICON_Animation_emits W H fuel st animID animate libID picIDs picIDe x y
      interval hf).framed h0
  | ICON_AnimationControl state =>
    exact (DWIN_ICON_AnimationControl_emits fuel st state hf).framed h0

theorem frame_header_and_tail_witness :
    Lcd.init.DWIN_SendBuf 0 = 0xAA ∧ 256 ≤ 256
      ∧ ((Command.Draw_String true 3 0x1234 0xABCD 5 600 [65, 66, 67] 0xFFFF).isString = true
          → SendBufSize 272 ≤ 255)
      ∧ ∃ body : List Nat,
          Sends ((Command.Draw_String true 3 0x1234 0xABCD 5 600 [65, 66, 67] 0xFFFF).run
            272 480 256 Lcd.init) Lcd.init (0xAA :: (body ++ [0xCC, 0x33, 0xC3, 0x3C])) :=
  ⟨by decide, by decide, fun _ => by decide,
   frame_header_and_tail 272 480 256 Lcd.init _ (by decide) (by decide) (fun _ => by decide)⟩

/-- C2: for every buffer content and every cursor `c ≤ 254`, `DWIN_Send`
returns (given fuel for the `c + 1` and the 4 rounds of its loops), has written
`DWIN_SendBuf[0..c]` in index order followed by 0xCC 0x33 0xC3 0x3C, `c + 5`
bytes in all, has left the buffer unchanged and the cursor at `c + 1`. -/
theorem DWIN_Send_writes_buffer_then_tail (fuel : Nat) (st : Lcd) (c : Nat) (hc : c ≤ 254)
    (hf : c + 2 ≤ fuel) (hf5 : 5 ≤ fuel) :
    ∃ st2 : Lcd, DWIN_Send fuel (st, c) = some (st2, c + 1)
      ∧ st2.serial = st.serial ++ (List.range (c + 1)).map st.DWIN_SendBuf
                      ++ [0xCC, 0x33, 0xC3, 0x3C]
      ∧ st2.serial.length = st.serial.length + (c + 5)
      ∧ st2.DWIN_SendBuf = st.DWIN_SendBuf
      ∧ st2.stores = st.stores := by
  refine ⟨_, DWIN_Send_eq fuel st c hc hf hf5, rfl, ?_, rfl, rfl⟩
  simp

theorem DWIN_Send_writes_buffer_then_tail_witness :
    3 ≤ 254 ∧ 3 + 2 ≤ 8 ∧ 5 ≤ 8 ∧
    ∃ st2 : Lcd, DWIN_Send 8 (Lcd.init, 3) = some (st2, 3 + 1)
      ∧ st2.serial = Lcd.init.serial ++ (List.range (3 + 1)).map Lcd.init.DWIN_SendBuf
                      ++ [0xCC, 0x33, 0xC3, 0x3C]
      ∧ st2.serial.length = Lcd.init.serial.length + (3 + 5)
      ∧ st2.DWIN_SendBuf = Lcd.init.DWIN_SendBuf
      ∧ st2.stores = Lcd.init.stores :=
  ⟨by decide, by decide, by decide,
   DWIN_Send_writes_buffer_then_tail 8 Lcd.init 3 (by decide) (by decide) (by decide)⟩

/-! ## The handshake read loop -/

theorem handshakeVerdict_eq (fuel : Nat) (st : Lcd) (h : Handshake) (s : List Nat)
    (hf : 256 ≤ fuel) :
    handshakeVerdict fuel st h s = some (handshakeResult (readLoop s h).1) := by
  obtain ⟨st2, hq, _⟩ := DWIN_Handshake_query_emits fuel st hf
  simp [handshakeVerdict, DWIN_Handshake, hq]

/-- While nothing is captured, bytes other than the sentinel only pass through
slot 0. -/
theorem readLoop_skip (s : List Nat) :
    ∀ d : Nat → Nat, ∃ d2 : Nat → Nat, (∀ k, 1 ≤ k → d2 k = d k)
      ∧ readLoop s ⟨0, d⟩ = readLoop (s.dropWhile (fun b => decide (b ≠ 0xA5))) ⟨0, d2⟩ := by
  induction s with
  | nil => intro d; exact ⟨d, fun _ _ => rfl, rfl⟩
  | cons b s ih =>
    intro d
    by_cases hb : b = 0xA5
    · refine ⟨d, fun _ _ => rfl, ?_⟩
      simp [List.dropWhile, hb]
    · obtain ⟨d2, h1, h2⟩ := ih (poke d 0 b)
      refine ⟨d2, ?_, ?_⟩
      · intro k hk
        rw [h1 k hk]
        simp only [poke]
        rw [if_neg (by omega)]
      · have hstep : readLoop (b :: s) ⟨0, d⟩ = readLoop s ⟨0, poke d 0 b⟩ := by
          simp [readLoop, readBody, poke, FHONE, hb]
        rw [hstep, h2]
        simp [List.dropWhile, hb]

/-- Once the sentinel is in slot 0, every byte is kept: the count does not go
down and the captured slots keep their bytes. -/
theorem readLoop_keep (t : List Nat) :
    ∀ (n : Nat) (d : Nat → Nat), 1 ≤ n → d 0 = 0xA5 →
      n ≤ (readLoop t ⟨n, d⟩).1.recnum
        ∧ ∀ k, k < n → (readLoop t ⟨n, d⟩).1.databuf k = d k := by
  induction t with
  | nil => intro n d _ _; exact ⟨Nat.le_refl _, fun _ _ => rfl⟩
  | cons b t ih =>
    intro n d hn h0
    by_cases h26 : n < 26
    · have hp0 : poke d n b 0 = 0xA5 := by
        simp only [poke]
        rw [if_neg (by omega), h0]
      have hstep : readLoop (b :: t) ⟨n, d⟩ = readLoop t ⟨n + 1, poke d n b⟩ := by
        simp [readLoop, readBody, h26, hp0, FHONE]
      obtain ⟨h1, h2⟩ := ih (n + 1) (poke d n b) (by omega) hp0
      rw [hstep]
      refine ⟨by omega, ?_⟩
      intro k hk
      rw [h2 k (by omega)]
      simp only [poke]
      rw [if_neg (by omega)]
    · have hstep : readLoop (b :: t) ⟨n, d⟩ = (⟨n, d⟩, b :: t) := by
        simp [readLoop, h26]
      rw [hstep]
      exact ⟨Nat.le_refl _, fun _ _ => rfl⟩

/-- The verdict after the sentinel has been stored in slot 0 of a buffer whose
slot 3 is zero. -/
theorem readLoop_after_sentinel (t : List Nat) (d : Nat → Nat) (h3 : d 3 = 0) :
    (handshakeResult (readLoop t ⟨1, poke d 0 0xA5⟩).1 = true
      ↔ [0x00, 0x4F, 0x4B] <+: t) := by
  match t with
  | [] => simp [readLoop, handshakeResult]
  | [a] => simp [readLoop, readBody, handshakeResult, poke, FHONE]
  | [a, b] =>
    simp [readLoop, readBody, handshakeResult, poke, FHONE, h3, List.prefix_iff_eq_take]
  | a :: b :: c :: rest =>
    have hstep : readLoop (a :: b :: c :: rest) ⟨1, poke d 0 0xA5⟩
        = readLoop rest ⟨4, poke (poke (poke (poke d 0 0xA5) 1 a) 2 b) 3 c⟩ := by
      simp [readLoop, readBody, poke, FHONE]
    obtain ⟨k1, k2⟩ := readLoop_keep rest 4 (poke (poke (poke (poke d 0 0xA5) 1 a) 2 b) 3 c)
      (by omega) (by simp [poke])
    rw [hstep]
    simp only [handshakeResult, k2 0 (by omega), k2 1 (by omega), k2 2 (by omega),
      k2 3 (by omega)]
    have hge : (readLoop rest ⟨4, poke (poke (poke (poke d 0 0xA5) 1 a) 2 b) 3 c⟩).1.recnum
        ≥ 3 := by omega
    simp [poke, FHONE, hge, List.cons_prefix_cons, and_assoc]
    constructor <;> rintro ⟨rfl, rfl, rfl⟩ <;> exact ⟨rfl, rfl, rfl⟩

theorem dropWhile_head_eq (p : Nat → Bool) (s : List Nat) :
    ∀ (a : Nat) (t : List Nat), s.dropWhile p = a :: t → p a = false := by
  induction s with
  | nil => intro a t h; simp at h
  | cons b s ih =>
    intro a t h
    by_cases hb : p b = true
    · rw [List.dropWhile_cons_of_pos hb] at h
      exact ih a t h
    · rw [List.dropWhile_cons_of_neg hb] at h
      simp only [List.cons.injEq] at h
      rw [← h.1]
      simpa using hb

/-- From the initial state the verdict is whether the stream, without its
leading bytes that are not the sentinel, begins with the reply. -/
theorem readLoop_init_result (s : List Nat) :
    (handshakeResult (readLoop s Handshake.init).1 = true
      ↔ [0xA5, 0x00, 0x4F, 0x4B] <+: s.dropWhile (fun b => decide (b ≠ 0xA5))) := by
  obtain ⟨d2, hd, heq⟩ := readLoop_skip s (fun _ => 0)
  have hinit : Handshake.init = ⟨0, fun _ => 0⟩ := rfl
  rw [hinit, heq]
  cases hdrop : s.dropWhile (fun b => decide (b ≠ 0xA5)) with
  | nil => simp [readLoop, handshakeResult]
  | cons a t =>
    have ha : a = 0xA5 := by
      have := dropWhile_head_eq (fun b => decide (b ≠ 0xA5)) s a t hdrop
      simpa using this
    subst ha
    have hstep : readLoop (0xA5 :: t) ⟨0, d2⟩ = readLoop t ⟨1, poke d2 0 0xA5⟩ := by
      simp [readLoop, readBody, poke, FHONE]
    rw [hstep, readLoop_after_sentinel t d2 (by rw [hd 3 (by omega)])]
    simp [List.cons_prefix_cons]

theorem dropWhile_noise_append (g tail : List Nat) (hg : ∀ b ∈ g, b ≠ 0xA5) :
    (g ++ 0xA5 :: tail).dropWhile (fun b => decide (b ≠ 0xA5)) = 0xA5 :: tail := by
  induction g with
  | nil => simp [List.dropWhile]
  | cons b g ih =>
    have hb : b ≠ 0xA5 := hg b (List.mem_cons_self b g)
    have := ih (fun c hc => hg c (List.mem_cons_of_mem b hc))
    simpa [List.dropWhile, hb] using this

/-! ## Claims C3 and C4 -/

/-- C3: from the initial state (`recnum = 0`, `databuf` all zero) and for
every finite reply stream `s`, `DWIN_Handshake` returns, and it returns success
exactly when `s` without its leading bytes other than 0xA5 begins with
0xA5, 0x00, 'O', 'K'. The stream 0xA5, 0x00, 'O', 'K' gives success; a stream
without 0xA5 gives failure; a stream that starts with 0xA5 and does not go on
with 0x00, 'O', 'K' gives failure. -/
theorem DWIN_Handshake_success_iff (fuel : Nat) (st : Lcd) (s : List Nat) (hf : 256 ≤ fuel) :
    (∃ ok : Bool, handshakeVerdict fuel st Handshake.init s = some ok
        ∧ (ok = true ↔
            [0xA5, 0x00, 0x4F, 0x4B] <+: s.dropWhile (fun b => decide (b ≠ 0xA5))))
      ∧ handshakeVerdict fuel st Handshake.init [0xA5, 0x00, 0x4F, 0x4B] = some true
      ∧ (0xA5 ∉ s → handshakeVerdict fuel st Handshake.init s = some false)
      ∧ (∀ t : List Nat, s = 0xA5 :: t → ¬ [0x00, 0x4F, 0x4B] <+: t →
          handshakeVerdict fuel st Handshake.init s = some false) := by
  refine ⟨⟨_, handshakeVerdict_eq fuel st _ s hf, readLoop_init_result s⟩, ?_, ?_, ?_⟩
  · rw [handshakeVerdict_eq fuel st _ _ hf]
    have := (readLoop_init_result [0xA5, 0x00, 0x4F, 0x4B]).mpr (by simp [List.dropWhile])
    rw [this]
  · intro hs
    rw [handshakeVerdict_eq fuel st _ _ hf]
    have hnil : s.dropWhile (fun b => decide (b ≠ 0xA5)) = [] := by
      rw [List.dropWhile_eq_nil_iff]
      intro x hx
      have : x ≠ 0xA5 := fun h => hs (h ▸ hx)
      simpa using this
    have hno : ¬ handshakeResult (readLoop s Handshake.init).1 = true := by
      rw [readLoop_init_result s, hnil]
      simp
    simpa using hno
  · intro t ht hpre
    rw [handshakeVerdict_eq fuel st _ _ hf]
    have hno : ¬ handshakeResult (readLoop s Handshake.init).1 = true := by
      rw [readLoop_init_result s, ht]
      simpa [List.dropWhile, List.cons_prefix_cons] using hpre
    simpa using hno

theorem DWIN_Handshake_success_iff_witness :
    256 ≤ 256 ∧
    ((∃ ok : Bool,
        handshakeVerdict 256 Lcd.init Handshake.init [0x00, 0x00, 0xA5, 0x00, 0x4F, 0x4B]
          = some ok
        ∧ (ok = true ↔
            [0xA5, 0x00, 0x4F, 0x4B] <+:
              [0x00, 0x00, 0xA5, 0x00, 0x4F, 0x4B].dropWhile (fun b => decide (b ≠ 0xA5))))
      ∧ handshakeVerdict 256 Lcd.init Handshake.init [0xA5, 0x00, 0x4F, 0x4B] = some true
      ∧ (0xA5 ∉ [0x00, 0x00, 0xA5, 0x00, 0x4F, 0x4B] →
          handshakeVerdict 256 Lcd.init Handshake.init [0x00, 0x00, 0xA5, 0x00, 0x4F, 0x4B]
            = some false)
      ∧ (∀ t : List Nat, [0x00, 0x00, 0xA5, 0x00, 0x4F, 0x4B] = 0xA5 :: t →
          ¬ [0x00, 0x4F, 0x4B] <+: t →
          handshakeVerdict 256 Lcd.init Handshake.init [0x00, 0x00, 0xA5, 0x00, 0x4F, 0x4B]
            = some false)) :=
  ⟨by decide, DWIN_Handshake_success_iff 256 Lcd.init _ (by decide)⟩

/-- C4, as stated, fails: with the noise 0xA5 in front of the valid reply the
handshake returns failure. -/
theorem resync_fails_on_sentinel_noise :
    handshakeVerdict 256 Lcd.init Handshake.init ([0xA5] ++ [0xA5, 0x00, 0x4F, 0x4B])
      = some false := by
  decide

/-- C4, amended: from the initial state, for every finite sequence `g` of
bytes none of which is 0xA5, `DWIN_Handshake` on `g` followed by
0xA5, 0x00, 'O', 'K' returns success. -/
theorem resync_after_noise (fuel : Nat) (st : Lcd) (g : List Nat) (hf : 256 ≤ fuel)
    (hg : ∀ b ∈ g, b ≠ 0xA5) :
    handshakeVerdict fuel st Handshake.init (g ++ [0xA5, 0x00, 0x4F, 0x4B]) = some true := by
  rw [handshakeVerdict_eq fuel st _ _ hf]
  have := (readLoop_init_result (g ++ [0xA5, 0x00, 0x4F, 0x4B])).mpr
    (by rw [dropWhile_noise_append g _ hg])
  rw [this]

theorem resync_after_noise_witness :
    256 ≤ 256 ∧ (∀ b ∈ [0x00, 0x00], b ≠ 0xA5) ∧
    handshakeVerdict 256 Lcd.init Handshake.init ([0x00, 0x00] ++ [0xA5, 0x00, 0x4F, 0x4B])
      = some true :=
  ⟨by decide, by decide, resync_after_noise 256 Lcd.init [0x00, 0x00] (by decide) (by decide)⟩

/-! ## Claims C5 and C6: the drawing commands decode back -/

theorem word_hi_of_lt {v : Nat} (h : v < 65536) : v / 256 % 256 = v / 256 := by omega

theorem word_be_split (v : Nat) : word_be (v / 256) (v % 256) = v := by
  unfold word_be
  omega

/-- C5: for 16-bit colors and coordinates and 8-bit width, height and mode,
`DWIN_Frame_Clear`, `DWIN_Draw_Point`, `DWIN_Draw_Line` and
`DWIN_Draw_Rectangle` send 0xAA, the opcode (0x01, 0x02, 0x03, 0x05), the
fields in the documented order with every word high byte first, and the tail;
the decoder of the documented layout gives back the arguments unchanged. -/
theorem drawing_frames_roundtrip (fuel : Nat) (st : Lcd)
    (color width height mode x y xStart yStart xEnd yEnd : Nat)
    (h0 : st.DWIN_SendBuf 0 = 0xAA) (hf : 256 ≤ fuel)
    (hcolor : color < 65536) (hwidth : width < 256) (hheight : height < 256)
    (hmode : mode < 256) (hx : x < 65536) (hy : y < 65536)
    (hxs : xStart < 65536) (hys : yStart < 65536) (hxe : xEnd < 65536) (hye : yEnd < 65536) :
    (Sends (DWIN_Frame_Clear fuel st color) st
        [0xAA, 0x01, color / 256, color % 256, 0xCC, 0x33, 0xC3, 0x3C]
      ∧ decode_Frame_Clear [0xAA, 0x01, color / 256, color % 256, 0xCC, 0x33, 0xC3, 0x3C]
          = some color)
    ∧ (Sends (DWIN_Draw_Point fuel st color width height x y) st
        [0xAA, 0x02, color / 256, color % 256, width, height, x / 256, x % 256,
         y / 256, y % 256, 0xCC, 0x33, 0xC3, 0x3C]
      ∧ decode_Draw_Point
          [0xAA, 0x02, color / 256, color % 256, width, height, x / 256, x % 256,
           y / 256, y % 256, 0xCC, 0x33, 0xC3, 0x3C]
          = some (color, width, height, x, y))
    ∧ (Sends (DWIN_Draw_Line fuel st color xStart yStart xEnd yEnd) st
        [0xAA, 0x03, color / 256, color % 256, xStart / 256, xStart % 256,
         yStart / 256, yStart % 256, xEnd / 256, xEnd % 256, yEnd / 256, yEnd % 256,
         0xCC, 0x33, 0xC3, 0x3C]
      ∧ decode_Draw_Line
          [0xAA, 0x03, color / 256, color % 256, xStart / 256, xStart % 256,
           yStart / 256, yStart % 256, xEnd / 256, xEnd % 256, yEnd / 256, yEnd % 256,
           0xCC, 0x33, 0xC3, 0x3C]
          = some (color, xStart, yStart, xEnd, yEnd))
    ∧ (Sends (DWIN_Draw_Rectangle fuel st mode color xStart yStart xEnd yEnd) st
        [0xAA, 0x05, mode, color / 256, color % 256, xStart / 256, xStart % 256,
         yStart / 256, yStart % 256, xEnd / 256, xEnd % 256, yEnd / 256, yEnd % 256,
         0xCC, 0x33, 0xC3, 0x3C]
      ∧ decode_Draw_Rectangle
          [0xAA, 0x05, mode, color / 256, color % 256, xStart / 256, xStart % 256,
           yStart / 256, yStart % 256, xEnd / 256, xEnd % 256, yEnd / 256, yEnd % 256,
           0xCC, 0x33, 0xC3, 0x3C]
          = some (mode, color, xStart, yStart, xEnd, yEnd)) := by
  have e1 := (DWIN_Frame_Clear_emits fuel st color hf).sends
  have e2 := (DWIN_Draw_Point_emits fuel st color width height x y hf).sends
  have e3 := (DWIN_Draw_Line_emits fuel st color xStart yStart xEnd yEnd hf).sends
  have e4 := (DWIN_Draw_Rectangle_emits fuel st mode color xStart yStart xEnd yEnd hf).sends
  rw [h0] at e1 e2 e3 e4
  simp only [word_hi_of_lt hcolor, word_hi_of_lt hx, word_hi_of_lt hy, word_hi_of_lt hxs,
    word_hi_of_lt hys, word_hi_of_lt hxe, word_hi_of_lt hye, Nat.mod_eq_of_lt hwidth,
    Nat.mod_eq_of_lt hheight, Nat.mod_eq_of_lt hmode, List.cons_append, List.nil_append]
    at e1 e2 e3 e4
  refine ⟨⟨e1, ?_⟩, ⟨e2, ?_⟩, ⟨e3, ?_⟩, ⟨e4, ?_⟩⟩
  · simp [decode_Frame_Clear, word_be_split]
  · simp [decode_Draw_Point, word_be_split]
  · simp [decode_Draw_Line, word_be_split]
  · simp [decode_Draw_Rectangle, word_be_split]

theorem drawing_frames_roundtrip_witness :
    Lcd.init.DWIN_SendBuf 0 = 0xAA ∧ 256 ≤ 256 ∧ 0xF800 < 65536 ∧ 3 < 256 ∧ 4 < 256
      ∧ 2 < 256 ∧ 271 < 65536 ∧ 479 < 65536 ∧ 10 < 65536 ∧ 20 < 65536 ∧ 300 < 65536
      ∧ 400 < 65536
      ∧ Sends (DWIN_Draw_Rectangle 256 Lcd.init 2 0xF800 10 20 300 400) Lcd.init
          [0xAA, 0x05, 2, 0xF800 / 256, 0xF800 % 256, 10 / 256, 10 % 256, 20 / 256, 20 % 256,
           300 / 256, 300 % 256, 400 / 256, 400 % 256, 0xCC, 0x33, 0xC3, 0x3C]
      ∧ decode_Draw_Rectangle
          [0xAA, 0x05, 2, 0xF800 / 256, 0xF800 % 256, 10 / 256, 10 % 256, 20 / 256, 20 % 256,
           300 / 256, 300 % 256, 400 / 256, 400 % 256, 0xCC, 0x33, 0xC3, 0x3C]
          = some (2, 0xF800, 10, 20, 300, 400) :=
  ⟨by decide, by decide, by decide, by decide, by decide, by decide, by decide, by decide,
   by decide, by decide, by decide, by decide,
   (drawing_frames_roundtrip 256 Lcd.init 0xF800 3 4 2 271 479 10 20 300 400
      (by decide) (by decide) (by decide) (by decide) (by decide) (by decide) (by decide)
      (by decide) (by decide) (by decide) (by decide) (by decide)).2.2.2⟩

theorem areaMove_flag (mode dir : Nat) (hmode : mode ≤ 1) (hdir : dir ≤ 3) :
    ((mode <<< 7) ||| dir) % 256 = (mode <<< 7) ||| dir
      ∧ ((mode <<< 7) ||| dir) >>> 7 = mode
      ∧ ((mode <<< 7) ||| dir) &&& 0x7F = dir
      ∧ ((mode <<< 7) ||| dir).testBit 7 = decide (mode = 1) := by
  interval_cases mode <;> interval_cases dir <;> decide

/-- C6: `DWIN_Frame_AreaMove` sends 0xAA, 0x09, one flag byte, then distance,
color, xStart, yStart, xEnd, yEnd as words, high byte first, then the tail.
For mode in {0,1} and dir in {0,1,2,3} the flag byte is `(mode<<7)|dir`: its
bit 7 gives back mode, the bits below give back dir, and the six words give
back their 16-bit arguments. -/
theorem areaMove_frame_roundtrip (fuel : Nat) (st : Lcd)
    (mode dir dis color xStart yStart xEnd yEnd : Nat)
    (h0 : st.DWIN_SendBuf 0 = 0xAA) (hf : 256 ≤ fuel)
    (hmode : mode ≤ 1) (hdir : dir ≤ 3) (hdis : dis < 65536) (hcolor : color < 65536)
    (hxs : xStart < 65536) (hys : yStart < 65536) (hxe : xEnd < 65536) (hye : yEnd < 65536) :
    Sends (DWIN_Frame_AreaMove fuel st mode dir dis color xStart yStart xEnd yEnd) st
        [0xAA, 0x09, (mode <<< 7) ||| dir, dis / 256, dis % 256, color / 256, color % 256,
         xStart / 256, xStart % 256, yStart / 256, yStart % 256, xEnd / 256, xEnd % 256,
         yEnd / 256, yEnd % 256, 0xCC, 0x33, 0xC3, 0x3C]
      ∧ ((mode <<< 7) ||| dir).testBit 7 = decide (mode = 1)
      ∧ ((mode <<< 7) ||| dir) >>> 7 = mode
      ∧ ((mode <<< 7) ||| dir) &&& 0x7F = dir
      ∧ decode_Frame_AreaMove
          [0xAA, 0x09, (mode <<< 7) ||| dir, dis / 256, dis % 256, color / 256, color % 256,
           xStart / 256, xStart % 256, yStart / 256, yStart % 256, xEnd / 256, xEnd % 256,
           yEnd / 256, yEnd % 256, 0xCC, 0x33, 0xC3, 0x3C]
          = some (mode, dir, dis, color, xStart, yStart, xEnd, yEnd) := by
  obtain ⟨f1, f2, f3, f4⟩ := areaMove_flag mode dir hmode hdir
  have e := (DWIN_Frame_AreaMove_emits fuel st mode dir dis color xStart yStart xEnd yEnd
    hf).sends
  rw [h0] at e
  simp only [word_hi_of_lt hdis, word_hi_of_lt hcolor, word_hi_of_lt hxs, word_hi_of_lt hys,
    word_hi_of_lt hxe, word_hi_of_lt hye, f1, List.cons_append, List.nil_append] at e
  refine ⟨e, f4, f2, f3, ?_⟩
  simp only [decode_Frame_AreaMove, word_be_split, f2, f3]

theorem areaMove_frame_roundtrip_witness :
    Lcd.init.DWIN_SendBuf 0 = 0xAA ∧ 256 ≤ 256 ∧ 1 ≤ 1 ∧ 2 ≤ 3 ∧ 40 < 65536 ∧ 0x001F < 65536
      ∧ 0 < 65536 ∧ 31 < 65536 ∧ 271 < 65536 ∧ 479 < 65536
      ∧ Sends (DWIN_Frame_AreaMove 256 Lcd.init 1 2 40 0x001F 0 31 271 479) Lcd.init
          [0xAA, 0x09, (1 <<< 7) ||| 2, 40 / 256, 40 % 256, 0x001F / 256, 0x001F % 256,
           0 / 256, 0 % 256, 31 / 256, 31 % 256, 271 / 256, 271 % 256,
           479 / 256, 479 % 256, 0xCC, 0x33, 0xC3, 0x3C]
      ∧ ((1 <<< 7) ||| 2) >>> 7 = 1
      ∧ ((1 <<< 7) ||| 2) &&& 0x7F = 2 :=
  have w := areaMove_frame_roundtrip 256 Lcd.init 1 2 40 0x001F 0 31 271 479
    (by decide) (by decide) (by decide) (by decide) (by decide) (by decide) (by decide)
    (by decide) (by decide) (by decide)
  ⟨by decide, by decide, by decide, by decide, by decide, by decide, by decide, by decide,
   by decide, by decide, w.1, w.2.2.1, w.2.2.2.1⟩

/-! ## Claims C7 and C8: the string command -/

theorem string_flag (bShow : Bool) (size : Nat) (hsize : size ≤ 15) :
    ((0 * 0x80) ||| (bShow.toNat * 0x40) ||| size) % 256 = (bShow.toNat * 0x40) ||| size
      ∧ ((bShow.toNat * 0x40) ||| size).testBit 7 = false
      ∧ ((bShow.toNat * 0x40) ||| size).testBit 6 = bShow
      ∧ ((bShow.toNat * 0x40) ||| size).testBit 5 = false
      ∧ ((bShow.toNat * 0x40) ||| size).testBit 4 = false
      ∧ ((bShow.toNat * 0x40) ||| size) &&& 0x0F = size := by
  cases bShow <;> interval_cases size <;> decide

/-- C7: `DWIN_Draw_String` sends 0xAA, 0x11, a flags byte, then color, bColor,
x, y as words, high byte first, then the text bytes, then the tail. For a font
size up to 15 the flags byte has bit 7 clear, bit 6 equal to `bShow`, bits 5
and 4 clear and bits 3-0 equal to `size`. The text bytes are the first
`min(strlen(string), rlimit)` bytes of the string when that many fit in the
slots after the four words, and never more than `rlimit` bytes. -/
theorem draw_string_frame (W fuel : Nat) (st : Lcd) (bShow : Bool)
    (size color bColor x y : Nat) (string : List Nat) (rlimit : Nat)
    (h0 : st.DWIN_SendBuf 0 = 0xAA) (hf : 256 ≤ fuel) (hW : SendBufSize W ≤ 255)
    (hsize : size ≤ 15) (hcolor : color < 65536) (hbColor : bColor < 65536)
    (hx : x < 65536) (hy : y < 65536) :
    Sends (DWIN_Draw_String W fuel st bShow size color bColor x y string rlimit) st
        ([0xAA, 0x11, (bShow.toNat * 0x40) ||| size, color / 256, color % 256,
          bColor / 256, bColor % 256, x / 256, x % 256, y / 256, y % 256]
          ++ string.take (textLen W string rlimit) ++ [0xCC, 0x33, 0xC3, 0x3C])
      ∧ ((bShow.toNat * 0x40) ||| size).testBit 7 = false
      ∧ ((bShow.toNat * 0x40) ||| size).testBit 6 = bShow
      ∧ ((bShow.toNat * 0x40) ||| size).testBit 5 = false
      ∧ ((bShow.toNat * 0x40) ||| size).testBit 4 = false
      ∧ ((bShow.toNat * 0x40) ||| size) &&& 0x0F = size
      ∧ (min string.length rlimit ≤ SendBufSize W - 11 →
          string.take (textLen W string rlimit) = string.take (min string.length rlimit))
      ∧ (string.take (textLen W string rlimit)).length ≤ rlimit := by
  obtain ⟨f0, f7, f6, f5, f4, flo⟩ := string_flag bShow size hsize
  have e := (DWIN_Draw_String_emits W fuel st bShow size color bColor x y string rlimit
    hW hf).sends
  rw [h0] at e
  simp only [word_hi_of_lt hcolor, word_hi_of_lt hbColor, word_hi_of_lt hx, word_hi_of_lt hy,
    f0, List.cons_append, List.nil_append, List.append_assoc] at e
  refine ⟨?_, f7, f6, f5, f4, flo, ?_, ?_⟩
  · simpa only [List.cons_append, List.nil_append, List.append_assoc] using e
  · intro hfit
    unfold textLen
    rw [Nat.min_eq_right hfit]
  · rw [List.length_take]
    unfold textLen
    omega

theorem draw_string_frame_witness :
    Lcd.init.DWIN_SendBuf 0 = 0xAA ∧ 256 ≤ 256 ∧ SendBufSize 272 ≤ 255 ∧ 3 ≤ 15
      ∧ 0xFFFF < 65536 ∧ 0x0841 < 65536 ∧ 10 < 65536 ∧ 20 < 65536
      ∧ Sends (DWIN_Draw_String 272 256 Lcd.init true 3 0xFFFF 0x0841 10 20
            [0x48, 0x65, 0x6C, 0x6C, 0x6F] 4) Lcd.init
          ([0xAA, 0x11, (true.toNat * 0x40) ||| 3, 0xFFFF / 256, 0xFFFF % 256,
            0x0841 / 256, 0x0841 % 256, 10 / 256, 10 % 256, 20 / 256, 20 % 256]
            ++ [0x48, 0x65, 0x6C, 0x6C, 0x6F].take (textLen 272 [0x48, 0x65, 0x6C, 0x6C, 0x6F] 4)
            ++ [0xCC, 0x33, 0xC3, 0x3C]) :=
  ⟨by decide, by decide, by decide, by decide, by decide, by decide, by decide, by decide,
   (draw_string_frame 272 256 Lcd.init true 3 0xFFFF 0x0841 10 20 [0x48, 0x65, 0x6C, 0x6C, 0x6F]
      4 (by decide) (by decide) (by decide) (by decide) (by decide) (by decide) (by decide)
      (by decide)).1⟩

/-- C8: for every string and every `rlimit`, every store that
`DWIN_Draw_String` makes into `DWIN_SendBuf`, the text append included, is at an
index below `sizeof(DWIN_SendBuf) = 11 + DWIN_WIDTH/6*2`, and the cursor handed
to `DWIN_Send` is below that size as well. A string of `DWIN_WIDTH/6*2` bytes
within `rlimit` is copied whole and fills the buffer to its last slot. -/
theorem draw_string_stays_in_buffer (W : Nat) (st : Lcd) (bShow : Bool)
    (size color bColor x y : Nat) (string : List Nat) (rlimit : Nat) :
    (∃ new : List Nat,
        (DWIN_Draw_String_fill W st bShow size color bColor x y string rlimit).1.stores
            = st.stores ++ new
          ∧ new.length = 10 + textLen W string rlimit
          ∧ ∀ k ∈ new, k < SendBufSize W)
      ∧ (DWIN_Draw_String_fill W st bShow size color bColor x y string rlimit).2
          < SendBufSize W
      ∧ (string.length = W / 6 * 2 → string.length ≤ rlimit →
          string.take (textLen W string rlimit) = string
            ∧ (DWIN_Draw_String_fill W st bShow size color bColor x y string rlimit).2 + 1
                = SendBufSize W) := by
  have h := DWIN_Draw_String_fill_spec W st bShow size color bColor x y string rlimit
  simp only [] at h
  obtain ⟨h1, _, h3, _, _⟩ := h
  have hle : textLen W string rlimit ≤ SendBufSize W - 11 := by unfold textLen; omega
  have hcap : 11 ≤ SendBufSize W := by unfold SendBufSize; omega
  refine ⟨⟨_, h3, by simp, ?_⟩, by omega, ?_⟩
  · intro k hk
    rw [List.mem_range'_1] at hk
    omega
  · intro hlen hlim
    have htl : textLen W string rlimit = string.length := by
      unfold textLen SendBufSize
      omega
    refine ⟨?_, ?_⟩
    · rw [htl]
      exact List.take_length string
    · rw [h1, htl, hlen]
      unfold SendBufSize
      omega

/-! ## Claims C9 and C10: the icon commands -/

theorem NOMORE_eq_min (v dim : Nat) (hdim : 0 < dim) (hv : v < 65536) :
    NOMORE v ((dim : Int) - 1) = min v (dim - 1) := by
  unfold NOMORE
  split_ifs with h
  · omega
  · omega

theorem min_word_lt (v dim : Nat) (hv : v < 65536) : min v (dim - 1) < 65536 := by omega

/-- C9: for 16-bit `x` and `y` (and display dimensions of at least one pixel),
the x and y words that both `DWIN_ICON_Show` overloads (0x23, 0x24) and
`DWIN_ICON_Animation` (0x28) send are `min(x, DWIN_WIDTH - 1)` and
`min(y, DWIN_HEIGHT - 1)`, high byte first. -/
theorem icon_coordinates_clamped (W H fuel : Nat) (st : Lcd) (IBD BIR BFI animate : Bool)
    (libID picID addr animID picIDs picIDe interval x y : Nat)
    (h0 : st.DWIN_SendBuf 0 = 0xAA) (hf : 256 ≤ fuel) (hW : 0 < W) (hH : 0 < H)
    (hx : x < 65536) (hy : y < 65536) :
    Sends (DWIN_ICON_Show W H fuel st IBD BIR BFI libID picID x y) st
        [0xAA, 0x23, min x (W - 1) / 256, min x (W - 1) % 256,
         min y (H - 1) / 256, min y (H - 1) % 256,
         ((IBD.toNat <<< 7) ||| (BIR.toNat <<< 6) ||| (BFI.toNat <<< 5) ||| libID) % 256,
         picID % 256, 0xCC, 0x33, 0xC3, 0x3C]
      ∧ Sends (DWIN_ICON_Show_addr W H fuel st IBD BIR BFI x y addr) st
        [0xAA, 0x24, min x (W - 1) / 256, min x (W - 1) % 256,
         min y (H - 1) / 256, min y (H - 1) % 256,
         ((IBD.toNat <<< 7) ||| (BIR.toNat <<< 6) ||| (BFI.toNat <<< 5) ||| 0x00) % 256,
         addr / 256 % 256, addr % 256, 0xCC, 0x33, 0xC3, 0x3C]
      ∧ Sends (DWIN_ICON_Animation W H fuel st animID animate libID picIDs picIDe x y
          interval) st
        [0xAA, 0x28, min x (W - 1) / 256, min x (W - 1) % 256,
         min y (H - 1) / 256, min y (H - 1) % 256,
         ((animate.toNat * 0x80) ||| 0x40 ||| animID) % 256,
         libID % 256, picIDs % 256, picIDe % 256, interval % 256, 0xCC, 0x33, 0xC3, 0x3C]
      ∧ word_be (min x (W - 1) / 256) (min x (W - 1) % 256) = min x (W - 1)
      ∧ word_be (min y (H - 1) / 256) (min y (H - 1) % 256) = min y (H - 1) := by
  have e1 := (DWIN_ICON_Show_emits W H fuel st IBD BIR BFI libID picID x y hf).sends
  have e2 := (DWIN_ICON_Show_addr_emits W H fuel st IBD BIR BFI x y addr hf).sends
  have e3 := (DWIN_ICON_Animation_emits W H fuel st animID animate libID picIDs picIDe x y
    interval hf).sends
  rw [h0] at e1 e2 e3
  simp only [NOMORE_eq_min x W hW hx, NOMORE_eq_min y H hH hy,
    word_hi_of_lt (min_word_lt x W hx), word_hi_of_lt (min_word_lt y H hy),
    List.cons_append, List.nil_append] at e1 e2 e3
  exact ⟨e1, e2, e3, word_be_split _, word_be_split _⟩

theorem icon_coordinates_clamped_witness :
    Lcd.init.DWIN_SendBuf 0 = 0xAA ∧ 256 ≤ 256 ∧ 0 < 272 ∧ 0 < 480 ∧ 272 + 50 < 65536
      ∧ 100 < 65536
      ∧ Sends (DWIN_ICON_Show 272 480 256 Lcd.init true false true 9 7 (272 + 50) 100) Lcd.init
        [0xAA, 0x23, min (272 + 50) (272 - 1) / 256, min (272 + 50) (272 - 1) % 256,
         min 100 (480 - 1) / 256, min 100 (480 - 1) % 256,
         ((true.toNat <<< 7) ||| (false.toNat <<< 6) ||| (true.toNat <<< 5) ||| 9) % 256,
         7 % 256, 0xCC, 0x33, 0xC3, 0x3C]
      ∧ word_be (min (272 + 50) (272 - 1) / 256) (min (272 + 50) (272 - 1) % 256) = 272 - 1 :=
  have w := icon_coordinates_clamped 272 480 256 Lcd.init true false true false 9 7 0 0 0 0 0
    (272 + 50) 100 (by decide) (by decide) (by decide) (by decide) (by decide) (by decide)
  ⟨by decide, by decide, by decide, by decide, by decide, by decide, w.1, w.2.2.2.1⟩

theorem icon_flag (IBD BIR BFI : Bool) (libID : Nat) (hlib : libID ≤ 31) :
    ((IBD.toNat <<< 7) ||| (BIR.toNat <<< 6) ||| (BFI.toNat <<< 5) ||| libID) % 256
        = (IBD.toNat <<< 7) ||| (BIR.toNat <<< 6) ||| (BFI.toNat <<< 5) ||| libID
      ∧ ((IBD.toNat <<< 7) ||| (BIR.toNat <<< 6) ||| (BFI.toNat <<< 5) ||| libID).testBit 7
          = IBD
      ∧ ((IBD.toNat <<< 7) ||| (BIR.toNat <<< 6) ||| (BFI.toNat <<< 5) ||| libID).testBit 6
          = BIR
      ∧ ((IBD.toNat <<< 7) ||| (BIR.toNat <<< 6) ||| (BFI.toNat <<< 5) ||| libID).testBit 5
          = BFI
      ∧ ((IBD.toNat <<< 7) ||| (BIR.toNat <<< 6) ||| (BFI.toNat <<< 5) ||| libID) &&& 0x1F
          = libID := by
  cases IBD <;> cases BIR <;> cases BFI <;> interval_cases libID <;> decide

/-- C10: `DWIN_ICON_Show(IBD,BIR,BFI,libID,picID,x,y)` sends 0xAA, 0x23, the
clamped x and y words, a flags byte, picID and the tail; for `libID ≤ 31` bit 7
of the flags byte is IBD, bit 6 is BIR, bit 5 is BFI and bits 4-0 are libID.
`DWIN_ICON_Show(IBD,BIR,BFI,x,y,addr)` sends 0xAA, 0x24, the x and y words, a
flags byte with the same three bits and bits 4-0 zero, `addr` as a word, high
byte first, and the tail. -/
theorem icon_show_layout (W H fuel : Nat) (st : Lcd) (IBD BIR BFI : Bool)
    (libID picID addr x y : Nat)
    (h0 : st.DWIN_SendBuf 0 = 0xAA) (hf : 256 ≤ fuel) (hW : 0 < W) (hH : 0 < H)
    (hx : x < 65536) (hy : y < 65536) (hlib : libID ≤ 31) (hpic : picID < 256)
    (haddr : addr < 65536) :
    Sends (DWIN_ICON_Show W H fuel st IBD BIR BFI libID picID x y) st
        [0xAA, 0x23, min x (W - 1) / 256, min x (W - 1) % 256,
         min y (H - 1) / 256, min y (H - 1) % 256,
         (IBD.toNat <<< 7) ||| (BIR.toNat <<< 6) ||| (BFI.toNat <<< 5) ||| libID,
         picID, 0xCC, 0x33, 0xC3, 0x3C]
      ∧ ((IBD.toNat <<< 7) ||| (BIR.toNat <<< 6) ||| (BFI.toNat <<< 5) ||| libID).testBit 7
          = IBD
      ∧ ((IBD.toNat <<< 7) ||| (BIR.toNat <<< 6) ||| (BFI.toNat <<< 5) ||| libID).testBit 6
          = BIR
      ∧ ((IBD.toNat <<< 7) ||| (BIR.toNat <<< 6) ||| (BFI.toNat <<< 5) ||| libID).testBit 5
          = BFI
      ∧ ((IBD.toNat <<< 7) ||| (BIR.toNat <<< 6) ||| (BFI.toNat <<< 5) ||| libID) &&& 0x1F
          = libID
      ∧ Sends (DWIN_ICON_Show_addr W H fuel st IBD BIR BFI x y addr) st
        [0xAA, 0x24, min x (W - 1) / 256, min x (W - 1) % 256,
         min y (H - 1) / 256, min y (H - 1) % 256,
         (IBD.toNat <<< 7) ||| (BIR.toNat <<< 6) ||| (BFI.toNat <<< 5) ||| 0x00,
         addr / 256, addr % 256, 0xCC, 0x33, 0xC3, 0x3C]
      ∧ ((IBD.toNat <<< 7) ||| (BIR.toNat <<< 6) ||| (BFI.toNat <<< 5) ||| 0x00).testBit 7
          = IBD
      ∧ ((IBD.toNat <<< 7) ||| (BIR.toNat <<< 6) ||| (BFI.toNat <<< 5) ||| 0x00).testBit 6
          = BIR
      ∧ ((IBD.toNat <<< 7) ||| (BIR.toNat <<< 6) ||| (BFI.toNat <<< 5) ||| 0x00).testBit 5
          = BFI
      ∧ ((IBD.toNat <<< 7) ||| (BIR.toNat <<< 6) ||| (BFI.toNat <<< 5) ||| 0x00) &&& 0x1F
          = 0 := by
  obtain ⟨a0, a7, a6, a5, alo⟩ := icon_flag IBD BIR BFI libID hlib
  obtain ⟨b0, b7, b6, b5, blo⟩ := icon_flag IBD BIR BFI 0x00 (by omega)
  have e1 := (DWIN_ICON_Show_emits W H fuel st IBD BIR BFI libID picID x y hf).sends
  have e2 := (DWIN_ICON_Show_addr_emits W H fuel st IBD BIR BFI x y addr hf).sends
  rw [h0] at e1 e2
  simp only [NOMORE_eq_min x W hW hx, NOMORE_eq_min y H hH hy,
    word_hi_of_lt (min_word_lt x W hx), word_hi_of_lt (min_word_lt y H hy),
    word_hi_of_lt haddr, Nat.mod_eq_of_lt hpic, a0, b0,
    List.cons_append, List.nil_append] at e1 e2
  exact ⟨e1, a7, a6, a5, alo, e2, b7, b6, b5, blo⟩

theorem icon_show_layout_witness :
    Lcd.init.DWIN_SendBuf 0 = 0xAA ∧ 256 ≤ 256 ∧ 0 < 272 ∧ 0 < 480 ∧ 26 < 65536
      ∧ 100 < 65536 ∧ 9 ≤ 31 ∧ 7 < 256 ∧ 0x4000 < 65536
      ∧ Sends (DWIN_ICON_Show 272 480 256 Lcd.init true false true 9 7 26 100) Lcd.init
        [0xAA, 0x23, min 26 (272 - 1) / 256, min 26 (272 - 1) % 256,
         min 100 (480 - 1) / 256, min 100 (480 - 1) % 256,
         (true.toNat <<< 7) ||| (false.toNat <<< 6) ||| (true.toNat <<< 5) ||| 9,
         7, 0xCC, 0x33, 0xC3, 0x3C]
      ∧ ((true.toNat <<< 7) ||| (false.toNat <<< 6) ||| (true.toNat <<< 5) ||| 9) &&& 0x1F
          = 9 :=
  have w := icon_show_layout 272 480 256 Lcd.init true false true 9 7 0x4000 26 100
    (by decide) (by decide) (by decide) (by decide) (by decide) (by decide) (by decide)
    (by decide) (by decide)
  ⟨by decide, by decide, by decide, by decide, by decide, by decide, by decide, by decide,
   by decide, w.1, w.2.2.2.2.1⟩

/-! ## Claims C11 to C13: animation and fixed frames -/

theorem animation_flag (animate : Bool) (animID : Nat) (hid : animID ≤ 15) :
    ((animate.toNat * 0x80) ||| 0x40 ||| animID) % 256
        = (animate.toNat * 0x80) ||| 0x40 ||| animID
      ∧ ((animate.toNat * 0x80) ||| 0x40 ||| animID).testBit 7 = animate
      ∧ ((animate.toNat * 0x80) ||| 0x40 ||| animID).testBit 6 = true
      ∧ ((animate.toNat * 0x80) ||| 0x40 ||| animID).testBit 5 = false
      ∧ ((animate.toNat * 0x80) ||| 0x40 ||| animID).testBit 4 = false
      ∧ ((animate.toNat * 0x80) ||| 0x40 ||| animID) &&& 0x0F = animID := by
  cases animate <;> interval_cases animID <;> decide

/-- C11: `DWIN_ICON_Animation` sends 0xAA, 0x28, the clamped x and y words
(high byte first), a flags byte, libID, picIDs, picIDe, one interval byte and
the tail. For `animID ≤ 15` the flags byte has bit 7 equal to `animate`, bit 6
set, bits 5 and 4 clear and bits 3-0 equal to `animID`. The interval byte is
the interval argument modulo 256, which is the argument itself exactly when
the argument is at most 255. -/
theorem icon_animation_layout (W H fuel : Nat) (st : Lcd) (animID : Nat) (animate : Bool)
    (libID picIDs picIDe x y interval : Nat)
    (h0 : st.DWIN_SendBuf 0 = 0xAA) (hf : 256 ≤ fuel) (hW : 0 < W) (hH : 0 < H)
    (hx : x < 65536) (hy : y < 65536) (hid : animID ≤ 15) (hlib : libID < 256)
    (hs : picIDs < 256) (he : picIDe < 256) :
    Sends (DWIN_ICON_Animation W H fuel st animID animate libID picIDs picIDe x y interval) st
        [0xAA, 0x28, min x (W - 1) / 256, min x (W - 1) % 256,
         min y (H - 1) / 256, min y (H - 1) % 256,
         (animate.toNat * 0x80) ||| 0x40 ||| animID,
         libID, picIDs, picIDe, interval % 256, 0xCC, 0x33, 0xC3, 0x3C]
      ∧ ((animate.toNat * 0x80) ||| 0x40 ||| animID).testBit 7 = animate
      ∧ ((animate.toNat * 0x80) ||| 0x40 ||| animID).testBit 6 = true
      ∧ ((animate.toNat * 0x80) ||| 0x40 ||| animID).testBit 5 = false
      ∧ ((animate.toNat * 0x80) ||| 0x40 ||| animID).testBit 4 = false
      ∧ ((animate.toNat * 0x80) ||| 0x40 ||| animID) &&& 0x0F = animID
      ∧ (interval % 256 = interval ↔ interval ≤ 255) := by
  obtain ⟨f0, f7, f6, f5, f4, flo⟩ := animation_flag animate animID hid
  have e := (DWIN_ICON_Animation_emits W H fuel st animID animate libID picIDs picIDe x y
    interval hf).sends
  rw [h0] at e
  simp only [NOMORE_eq_min x W hW hx, NOMORE_eq_min y H hH hy,
    word_hi_of_lt (min_word_lt x W hx), word_hi_of_lt (min_word_lt y H hy),
    Nat.mod_eq_of_lt hlib, Nat.mod_eq_of_lt hs, Nat.mod_eq_of_lt he, f0,
    List.cons_append, List.nil_append] at e
  refine ⟨e, f7, f6, f5, f4, flo, ?_⟩
  omega

theorem icon_animation_layout_witness :
    Lcd.init.DWIN_SendBuf 0 = 0xAA ∧ 256 ≤ 256 ∧ 0 < 272 ∧ 0 < 480 ∧ 100 < 65536
      ∧ 200 < 65536 ∧ 5 ≤ 15 ∧ 9 < 256 ∧ 1 < 256 ∧ 8 < 256
      ∧ Sends (DWIN_ICON_Animation 272 480 256 Lcd.init 5 true 9 1 8 100 200 300) Lcd.init
        [0xAA, 0x28, min 100 (272 - 1) / 256, min 100 (272 - 1) % 256,
         min 200 (480 - 1) / 256, min 200 (480 - 1) % 256,
         (true.toNat * 0x80) ||| 0x40 ||| 5,
         9, 1, 8, 300 % 256, 0xCC, 0x33, 0xC3, 0x3C]
      ∧ (300 % 256 = 300 ↔ 300 ≤ 255) :=
  have w := icon_animation_layout 272 480 256 Lcd.init 5 true 9 1 8 100 200 300
    (by decide) (by decide) (by decide) (by decide) (by decide) (by decide) (by decide)
    (by decide) (by decide) (by decide)
  ⟨by decide, by decide, by decide, by decide, by decide, by decide, by decide, by decide,
   by decide, by decide, w.1, w.2.2.2.2.2.2⟩

/-- C12: `DWIN_ICON_AnimationControl(state)` sends exactly 0xAA, 0x29,
`state >> 8`, `state & 0xFF` and the tail; for a 16-bit `state` the word read
back high byte first has, at every bit position, the bit of `state`. -/
theorem animation_control_bits (fuel : Nat) (st : Lcd) (state : Nat)
    (h0 : st.DWIN_SendBuf 0 = 0xAA) (hf : 256 ≤ fuel) (hstate : state < 65536) :
    Sends (DWIN_ICON_AnimationControl fuel st state) st
        [0xAA, 0x29, state >>> 8, state &&& 0xFF, 0xCC, 0x33, 0xC3, 0x3C]
      ∧ ∀ k : Nat, k < 16 →
          (word_be (state >>> 8) (state &&& 0xFF)).testBit k = state.testBit k := by
  have e := (DWIN_ICON_AnimationControl_emits fuel st state hf).sends
  have hhi : state >>> 8 = state / 256 := by
    rw [Nat.shiftRight_eq_div_pow]
  have hlo : state &&& 0xFF = state % 256 := by
    have := Nat.and_pow_two_sub_one_eq_mod state 8
    simpa using this
  rw [h0] at e
  simp only [word_hi_of_lt hstate, List.cons_append, List.nil_append] at e
  rw [hhi, hlo]
  refine ⟨e, ?_⟩
  intro k _
  rw [word_be_split]

theorem animation_control_bits_witness :
    Lcd.init.DWIN_SendBuf 0 = 0xAA ∧ 256 ≤ 256 ∧ 0x0005 < 65536
      ∧ Sends (DWIN_ICON_AnimationControl 256 Lcd.init 0x0005) Lcd.init
          [0xAA, 0x29, 0x0005 >>> 8, 0x0005 &&& 0xFF, 0xCC, 0x33, 0xC3, 0x3C]
      ∧ (0x0005 >>> 8 = 0x00 ∧ 0x0005 &&& 0xFF = 0x05)
      ∧ ∀ k : Nat, k < 16 →
          ((word_be (0x0005 >>> 8) (0x0005 &&& 0xFF)).testBit k = true ↔ k = 0 ∨ k = 2) :=
  have w := animation_control_bits 256 Lcd.init 0x0005 (by decide) (by decide) (by decide)
  ⟨by decide, by decide, by decide, w.1, by decide, by decide⟩

/-- C13: for 8-bit arguments the handshake query sends AA 00 + tail,
`DWIN_LCD_Brightness(b)` AA 30 b + tail, `DWIN_Frame_SetDir(dir)`
AA 34 5A A5 dir + tail, `DWIN_UpdateLCD` AA 3D + tail, `DWIN_JPG_CacheToN(n,id)`
AA 25 n id + tail and `DWIN_JPG_ShowAndCache(id)` AA 22 00 id + tail, eight
bytes in all, with tail = CC 33 C3 3C. -/
theorem fixed_frames (fuel : Nat) (st : Lcd) (b dir n id : Nat)
    (h0 : st.DWIN_SendBuf 0 = 0xAA) (hf : 256 ≤ fuel)
    (hb : b < 256) (hdir : dir < 256) (hn : n < 256) (hid : id < 256) :
    Sends (DWIN_Handshake_query fuel st) st [0xAA, 0x00, 0xCC, 0x33, 0xC3, 0x3C]
      ∧ Sends (DWIN_LCD_Brightness fuel st b) st [0xAA, 0x30, b, 0xCC, 0x33, 0xC3, 0x3C]
      ∧ Sends (DWIN_Frame_SetDir fuel st dir) st
          [0xAA, 0x34, 0x5A, 0xA5, dir, 0xCC, 0x33, 0xC3, 0x3C]
      ∧ Sends (DWIN_UpdateLCD fuel st) st [0xAA, 0x3D, 0xCC, 0x33, 0xC3, 0x3C]
      ∧ Sends (DWIN_JPG_CacheToN fuel st n id) st [0xAA, 0x25, n, id, 0xCC, 0x33, 0xC3, 0x3C]
      ∧ Sends (DWIN_JPG_ShowAndCache fuel st id) st
          [0xAA, 0x22, 0x00, id, 0xCC, 0x33, 0xC3, 0x3C]
      ∧ [0xAA, 0x22, 0x00, id, 0xCC, 0x33, 0xC3, 0x3C].length = 8 := by
  have e1 := (DWIN_Handshake_query_emits fuel st hf).sends
  have e2 := (DWIN_LCD_Brightness_emits fuel st b hf).sends
  have e3 := (DWIN_Frame_SetDir_emits fuel st dir hf).sends
  have e4 := (DWIN_UpdateLCD_emits fuel st hf).sends
  have e5 := (DWIN_JPG_CacheToN_emits fuel st n id hf).sends
  have e6 := (DWIN_JPG_ShowAndCache_emits fuel st id hf).sends
  rw [h0] at e1 e2 e3 e4 e5 e6
  simp only [Nat.mod_eq_of_lt hb, Nat.mod_eq_of_lt hdir, Nat.mod_eq_of_lt hn,
    Nat.mod_eq_of_lt hid, List.cons_append, List.nil_append] at e1 e2 e3 e4 e5 e6
  exact ⟨e1, e2, e3, e4, e5, e6, rfl⟩

theorem fixed_frames_witness :
    Lcd.init.DWIN_SendBuf 0 = 0xAA ∧ 256 ≤ 256 ∧ 0x7F < 256 ∧ 1 < 256 ∧ 2 < 256 ∧ 3 < 256
      ∧ Sends (DWIN_Frame_SetDir 256 Lcd.init 1) Lcd.init
          [0xAA, 0x34, 0x5A, 0xA5, 1, 0xCC, 0x33, 0xC3, 0x3C]
      ∧ Sends (DWIN_JPG_ShowAndCache 256 Lcd.init 3) Lcd.init
          [0xAA, 0x22, 0x00, 3, 0xCC, 0x33, 0xC3, 0x3C] :=
  have w := fixed_frames 256 Lcd.init 0x7F 1 2 3 (by decide) (by decide) (by decide)
    (by decide) (by decide) (by decide)
  ⟨by decide, by decide, by decide, by decide, by decide, by decide, w.2.2.1, w.2.2.2.2.2.1⟩

/-! ## The receive state across rounds and calls -/

theorem HandshakeInv_init : HandshakeInv Handshake.init :=
  ⟨by decide, fun h => absurd h (by decide), fun _ _ _ => rfl⟩

theorem readBody_of_captured (b : Nat) (h : Handshake) (hpos : 0 < h.recnum)
    (h0 : h.databuf 0 = FHONE) :
    readBody b h = ⟨h.recnum + 1, poke h.databuf h.recnum b⟩ := by
  have hp : poke h.databuf h.recnum b 0 = FHONE := by
    simp only [poke]
    rw [if_neg (by omega), h0]
  simp [readBody, hp]

theorem readBody_of_empty (b : Nat) (h : Handshake) (hz : h.recnum = 0) :
    readBody b h
      = if b = FHONE then ⟨1, poke h.databuf 0 b⟩ else ⟨0, poke h.databuf 0 b⟩ := by
  by_cases hb : b = FHONE
  · simp [readBody, hz, poke, hb]
  · simp [readBody, hz, poke, hb]

theorem HandshakeInv_readBody (b : Nat) (h : Handshake) (hinv : HandshakeInv h)
    (hlt : h.recnum < 26) : HandshakeInv (readBody b h) := by
  obtain ⟨_, i2, i3⟩ := hinv
  by_cases hz : h.recnum = 0
  · rw [readBody_of_empty b h hz]
    by_cases hb : b = FHONE
    · rw [if_pos hb]
      refine ⟨by simp, fun _ => by simp [poke, hb], ?_⟩
      intro k hk _
      simp only [poke]
      rw [if_neg (by omega)]
      exact i3 k hk (by omega)
    · rw [if_neg hb]
      refine ⟨by simp, fun hpos => absurd hpos (by simp), ?_⟩
      intro k hk _
      simp only [poke]
      rw [if_neg (by omega)]
      exact i3 k hk (by omega)
  · have hpos : 0 < h.recnum := by omega
    rw [readBody_of_captured b h hpos (i2 hpos)]
    refine ⟨by simp; omega, ?_, ?_⟩
    · intro _
      simp only [poke]
      rw [if_neg (by omega)]
      exact i2 hpos
    · intro k hk hle
      simp only at hle
      simp only [poke]
      rw [if_neg (by omega)]
      exact i3 k hk (by omega)

theorem HandshakeInv_readLoop (s : List Nat) :
    ∀ h : Handshake, HandshakeInv h → HandshakeInv (readLoop s h).1 := by
  induction s with
  | nil => intro h hinv; exact hinv
  | cons b s ih =>
    intro h hinv
    by_cases hlt : h.recnum < 26
    · simp only [readLoop, hlt, if_true]
      exact ih _ (HandshakeInv_readBody b h hinv hlt)
    · simp only [readLoop, hlt, if_false]
      exact hinv

theorem HandshakeInv_runCalls (calls : List (List Nat)) :
    ∀ h : Handshake, HandshakeInv h → HandshakeInv (runCalls calls h) := by
  induction calls with
  | nil => intro h hinv; exact hinv
  | cons s calls ih =>
    intro h hinv
    exact ih _ (HandshakeInv_readLoop s h hinv)

theorem HandshakeInv_reachable (calls : List (List Nat)) :
    HandshakeInv (runCalls calls Handshake.init) :=
  HandshakeInv_runCalls calls _ HandshakeInv_init

theorem readSteps_guard (s : List Nat) :
    ∀ h : Handshake, ∀ k ∈ readSteps s h, k.recnum < 26 := by
  induction s with
  | nil => intro h k hk; simp [readSteps] at hk
  | cons b s ih =>
    intro h k hk
    by_cases hlt : h.recnum < 26
    · simp only [readSteps, hlt, if_true, List.mem_cons] at hk
      rcases hk with rfl | hk
      · exact hlt
      · exact ih _ k hk
    · simp [readSteps, hlt] at hk

theorem readSteps_length (s : List Nat) :
    ∀ h : Handshake, (readSteps s h).length + (readLoop s h).2.length = s.length := by
  induction s with
  | nil => intro h; rfl
  | cons b s ih =>
    intro h
    by_cases hlt : h.recnum < 26
    · simp only [readSteps, readLoop, hlt, if_true, List.length_cons]
      have := ih (readBody b h)
      omega
    · simp [readSteps, readLoop, hlt]

theorem readLoop_exit (s : List Nat) :
    ∀ h : Handshake, HandshakeInv h →
      (readLoop s h).2 = [] ∨ (readLoop s h).1.recnum = 26 := by
  induction s with
  | nil => intro h _; exact Or.inl rfl
  | cons b s ih =>
    intro h hinv
    by_cases hlt : h.recnum < 26
    · simp only [readLoop, hlt, if_true]
      exact ih _ (HandshakeInv_readBody b h hinv hlt)
    · simp only [readLoop, hlt, if_false]
      right
      have := hinv.1
      omega

/-- Once a byte is captured, a call runs at most `26 - recnum` rounds. -/
theorem readSteps_captured (s : List Nat) :
    ∀ h : Handshake, HandshakeInv h → 0 < h.recnum →
      (readSteps s h).length + h.recnum ≤ 26 := by
  induction s with
  | nil => intro h hinv _; have := hinv.1; simp [readSteps]; omega
  | cons b s ih =>
    intro h hinv hpos
    by_cases hlt : h.recnum < 26
    · simp only [readSteps, hlt, if_true, List.length_cons]
      have hb := readBody_of_captured b h hpos (hinv.2.1 hpos)
      have := ih _ (HandshakeInv_readBody b h hinv hlt) (by rw [hb]; simp)
      rw [hb] at this
      simp only at this
      rw [hb]
      omega
    · have := hinv.1
      simp [readSteps, hlt]
      omega

theorem readSteps_bound (s : List Nat) :
    ∀ h : Handshake, HandshakeInv h →
      (readSteps s h).length
        ≤ (s.takeWhile (fun b => decide (b ≠ 0xA5))).length + 26 := by
  induction s with
  | nil => intro h _; simp [readSteps]
  | cons b s ih =>
    intro h hinv
    by_cases hz : h.recnum = 0
    · have hlt : h.recnum < 26 := by omega
      simp only [readSteps, hlt, if_true, List.length_cons]
      have hinv2 := HandshakeInv_readBody b h hinv hlt
      by_cases hb : b = 0xA5
      · have hrb : (readBody b h).recnum = 1 := by
          rw [readBody_of_empty b h hz]
          simp [FHONE, hb]
        have := readSteps_captured s _ hinv2 (by omega)
        omega
      · have := ih _ hinv2
        have htw : (b :: s).takeWhile (fun b => decide (b ≠ 0xA5))
            = b :: s.takeWhile (fun b => decide (b ≠ 0xA5)) :=
          List.takeWhile_cons_of_pos (by simpa using hb)
        rw [htw, List.length_cons]
        omega
    · have := readSteps_captured (b :: s) h hinv (by omega)
      omega

/-! ## Claim C14 -/

/-- C14: in every state that earlier handshake calls can leave, and for every
finite reply stream, the read loop ends after a number of rounds that equals
the number of bytes consumed; on exit the stream is exhausted or
`recnum = 26`; `recnum` is at most 26 at the head of every round and on exit;
every store `databuf[recnum]` is at an index below 26; and the bytes consumed
are at most the leading bytes other than 0xA5 plus 26. -/
theorem handshake_receive_bound (calls : List (List Nat)) (s : List Nat) :
    ((readLoop s (runCalls calls Handshake.init)).2 = []
        ∨ (readLoop s (runCalls calls Handshake.init)).1.recnum = 26)
      ∧ (∀ k ∈ readSteps s (runCalls calls Handshake.init), k.recnum < 26)
      ∧ (readLoop s (runCalls calls Handshake.init)).1.recnum ≤ 26
      ∧ (readSteps s (runCalls calls Handshake.init)).length
          + (readLoop s (runCalls calls Handshake.init)).2.length = s.length
      ∧ s.length - (readLoop s (runCalls calls Handshake.init)).2.length
          ≤ (s.takeWhile (fun b => decide (b ≠ 0xA5))).length + 26 := by
  have hinv := HandshakeInv_reachable calls
  have hlen := readSteps_length s (runCalls calls Handshake.init)
  have hb := readSteps_bound s _ hinv
  refine ⟨readLoop_exit s _ hinv, readSteps_guard s _, (HandshakeInv_readLoop s _ hinv).1,
    hlen, ?_⟩
  omega

/-! ## Claims C15 and C16 -/

theorem handshakeResult_ge4_eq (h : Handshake) (hinv : HandshakeInv h) :
    handshakeResult h = handshakeResult_ge4 h := by
  by_cases h4 : 4 ≤ h.recnum
  · have h3 : 3 ≤ h.recnum := by omega
    simp [handshakeResult, handshakeResult_ge4, h3, h4]
  · have hz : h.databuf 3 = 0 := hinv.2.2 3 (by omega) (by omega)
    simp [handshakeResult, handshakeResult_ge4, h4, hz]

/-- C15: from the initial state and from every state that earlier handshake
calls leave, `DWIN_Handshake` with the test `recnum >= 3` and the function
with the test `recnum >= 4` return, and return the same verdict, states and
unread bytes, for every reply stream; `databuf[3] == 'K'` holds after the loop
only when at least four bytes were captured. -/
theorem handshake_ge3_same_as_ge4 (fuel : Nat) (st : Lcd) (calls : List (List Nat))
    (s : List Nat) (hf : 256 ≤ fuel) :
    (∃ r, DWIN_Handshake fuel st (runCalls calls Handshake.init) s = some r
        ∧ DWIN_Handshake_ge4 fuel st (runCalls calls Handshake.init) s = some r)
      ∧ ((readLoop s (runCalls calls Handshake.init)).1.databuf 3 = 0x4B →
          4 ≤ (readLoop s (runCalls calls Handshake.init)).1.recnum) := by
  have hinv := HandshakeInv_readLoop s _ (HandshakeInv_reachable calls)
  obtain ⟨st2, hq, _⟩ := DWIN_Handshake_query_emits fuel st hf
  refine ⟨⟨(handshakeResult (readLoop s (runCalls calls Handshake.init)).1, st2,
      (readLoop s (runCalls calls Handshake.init)).1,
      (readLoop s (runCalls calls Handshake.init)).2), ?_, ?_⟩, ?_⟩
  · simp only [DWIN_Handshake, hq]
  · simp only [DWIN_Handshake_ge4, hq, handshakeResult_ge4_eq _ hinv]
  · intro hK
    by_contra hlt
    have hz := hinv.2.2 3 (by omega) (by omega)
    rw [hK] at hz
    omega

theorem handshake_ge3_same_as_ge4_witness :
    256 ≤ 256 ∧
    ∃ r, DWIN_Handshake 256 Lcd.init (runCalls [[0x00, 0xA5, 0x00]] Handshake.init)
            [0x4F, 0x4B] = some r
        ∧ DWIN_Handshake_ge4 256 Lcd.init (runCalls [[0x00, 0xA5, 0x00]] Handshake.init)
            [0x4F, 0x4B] = some r :=
  ⟨by decide,
   (handshake_ge3_same_as_ge4 256 Lcd.init [[0x00, 0xA5, 0x00]] [0x4F, 0x4B] (by decide)).1⟩

/-- C16, as stated, fails: in the initial state the byte 0x42 is read, the
first stored byte is not the sentinel, and after the round slot 0 holds 0x42,
so not every slot is zero. -/
theorem reset_leaves_rejected_byte :
    poke Handshake.init.databuf Handshake.init.recnum 0x42 0 ≠ FHONE
      ∧ (readBody 0x42 Handshake.init).recnum = 0
      ∧ (readBody 0x42 Handshake.init).databuf 0 = 0x42
      ∧ ¬ ∀ k, k < 26 → (readBody 0x42 Handshake.init).databuf k = 0 := by
  decide

/-- C16, amended: when a byte has been read and the first stored byte is not
the sentinel, `recnum` is 0 after the round. The buffer is cleared, every slot
zero, only if `recnum` was above 0 before the round; if `recnum` was 0 the
byte just read stays in slot 0 and no slot is cleared. In the states that
handshake calls can reach from the initial state, `recnum` was 0, slot 0 holds
the rejected byte and all other slots are zero after the round. -/
theorem reset_on_bad_first_byte (b : Nat) (h : Handshake)
    (hbad : poke h.databuf h.recnum b 0 ≠ FHONE) :
    (readBody b h).recnum = 0
      ∧ (0 < h.recnum → ∀ k, k < 26 → (readBody b h).databuf k = 0)
      ∧ (h.recnum = 0 → (readBody b h).databuf = poke h.databuf 0 b)
      ∧ (∀ calls : List (List Nat), h = runCalls calls Handshake.init →
          h.recnum = 0 ∧ (readBody b h).databuf 0 = b
            ∧ ∀ k, 1 ≤ k → (readBody b h).databuf k = 0) := by
  have hbody : readBody b h
      = if h.recnum > 0 then ⟨0, ZERO (poke h.databuf h.recnum b)⟩
        else ⟨h.recnum, poke h.databuf h.recnum b⟩ := by
    simp only [readBody]
    rw [if_pos hbad]
  refine ⟨?_, ?_, ?_, ?_⟩
  · rw [hbody]
    split_ifs with hpos
    · rfl
    · simp only
      omega
  · intro hpos k hk
    rw [hbody, if_pos hpos]
    simp [ZERO, hk]
  · intro hz
    rw [hbody, if_neg (by omega), hz]
  · intro calls hreach
    have hinv : HandshakeInv h := hreach ▸ HandshakeInv_reachable calls
    have hz : h.recnum = 0 := by
      by_contra hne
      have hpos : 0 < h.recnum := by omega
      apply hbad
      simp only [poke]
      rw [if_neg (by omega)]
      exact hinv.2.1 hpos
    rw [hbody, if_neg (by omega), hz]
    refine ⟨rfl, by simp [poke], ?_⟩
    intro k hk
    simp only [poke]
    rw [if_neg (by omega)]
    exact hinv.2.2 k hk (by omega)

theorem reset_on_bad_first_byte_witness :
    poke Handshake.init.databuf Handshake.init.recnum 0x42 0 ≠ FHONE
      ∧ (readBody 0x42 Handshake.init).recnum = 0
      ∧ (Handshake.init.recnum = 0 →
          (readBody 0x42 Handshake.init).databuf = poke Handshake.init.databuf 0 0x42) :=
  have w := reset_on_bad_first_byte 0x42 Handshake.init (by decide)
  ⟨by decide, w.1, w.2.2.1⟩

/-! ## Claim C20 -/

/-- C20: `recnum > 0` implies `databuf[0] = 0xA5` in the initial state, is kept
by every round of the read loop, and so holds after every sequence of calls
from the initial state. In those states the reset branch
(`databuf[0] != FHONE && recnum > 0`) is not taken for any byte; a round leaves
`recnum` unchanged, dropping the byte, only while `recnum = 0`; and once
`recnum > 0` every byte read is stored at `databuf[recnum]` and counted. -/
theorem handshake_sentinel_invariant :
    (0 < Handshake.init.recnum → Handshake.init.databuf 0 = 0xA5)
      ∧ (∀ (b : Nat) (h : Handshake), (0 < h.recnum → h.databuf 0 = 0xA5) →
          (0 < (readBody b h).recnum → (readBody b h).databuf 0 = 0xA5))
      ∧ (∀ (calls : List (List Nat)) (b : Nat),
          (0 < (runCalls calls Handshake.init).recnum →
              (runCalls calls Handshake.init).databuf 0 = 0xA5)
            ∧ resetTaken b (runCalls calls Handshake.init) = false
            ∧ ((readBody b (runCalls calls Handshake.init)).recnum
                  ≤ (runCalls calls Handshake.init).recnum →
                (runCalls calls Handshake.init).recnum = 0)
            ∧ (0 < (runCalls calls Handshake.init).recnum →
                readBody b (runCalls calls Handshake.init)
                  = ⟨(runCalls calls Handshake.init).recnum + 1,
                     poke (runCalls calls Handshake.init).databuf
                       (runCalls calls Handshake.init).recnum b⟩)) := by
  refine ⟨fun h => absurd h (by decide), ?_, ?_⟩
  · intro b h hinv hpos
    by_cases hz : h.recnum = 0
    · rw [readBody_of_empty b h hz] at hpos ⊢
      by_cases hb : b = FHONE
      · rw [if_pos hb]
        simp [poke, hb, FHONE]
      · rw [if_neg hb] at hpos
        simp at hpos
    · have hp : 0 < h.recnum := by omega
      rw [readBody_of_captured b h hp (hinv hp)]
      simp only [poke]
      rw [if_neg (by omega)]
      exact hinv hp
  · intro calls b
    have hinv := HandshakeInv_reachable calls
    refine ⟨hinv.2.1, ?_, ?_, ?_⟩
    · by_cases hz : (runCalls calls Handshake.init).recnum = 0
      · simp [resetTaken, hz]
      · have hp : 0 < (runCalls calls Handshake.init).recnum := by omega
        have h0 := hinv.2.1 hp
        have : poke (runCalls calls Handshake.init).databuf
            (runCalls calls Handshake.init).recnum b 0 = FHONE := by
          simp only [poke]
          rw [if_neg (by omega), h0]
        simp [resetTaken, this]
    · intro hle
      by_contra hne
      have hp : 0 < (runCalls calls Handshake.init).recnum := by omega
      rw [readBody_of_captured b _ hp (hinv.2.1 hp)] at hle
      simp only at hle
      omega
    · intro hp
      exact readBody_of_captured b _ hp (hinv.2.1 hp)

/-! ## Claims C17 and C18: every command as one frame -/

theorem Command.run_emits (W H fuel : Nat) (st : Lcd) (cmd : Command) (hf : 256 ≤ fuel)
    (hW : cmd.isString = true → SendBufSize W ≤ 255) :
    Emits (cmd.run W H fuel st) st (cmd.body W H) := by
  cases cmd with
  | Handshake_query => exact DWIN_Handshake_query_emits fuel st hf
  | LCD_Brightness b => exact DWIN_LCD_Brightness_emits fuel st b hf
  | Frame_SetDir dir => exact DWIN_Frame_SetDir_emits fuel st dir hf
  | UpdateLCD => exact DWIN_UpdateLCD_emits fuel st hf
  | Frame_Clear color => exact DWIN_Frame_Clear_emits fuel st color hf
  | Draw_Point color w h x y => exact DWIN_Draw_Point_emits fuel st color w h x y hf
  | Draw_Line color a b c d => exact DWIN_Draw_Line_emits fuel st color a b c d hf
  | Draw_Rectangle m color a b c d =>
    exact DWIN_Draw_Rectangle_emits fuel st m color a b c d hf
  | Frame_AreaMove m dir dis color a b c d =>
    exact DWIN_Frame_AreaMove_emits fuel st m dir dis color a b c d hf
  | Draw_String bShow size color bColor x y string rlimit =>
    exact DWIN_Draw_String_emits W fuel st bShow size color bColor x y string rlimit
      (hW rfl) hf
  | JPG_ShowAndCache id => exact DWIN_JPG_ShowAndCache_emits fuel st id hf
  | ICON_Show IBD BIR BFI libID picID x y =>
    exact DWIN_ICON_Show_emits W H fuel st IBD BIR BFI libID picID x y hf
  | ICON_Show_addr IBD BIR BFI x y addr =>
    exact DWIN_ICON_Show_addr_emits W H fuel st IBD BIR BFI x y addr hf
  | JPG_CacheToN n id => exact DWIN_JPG_CacheToN_emits fuel st n id hf
  | ICON_Animation animID animate libID picIDs picIDe x y interval =>
    exact DWIN_ICON_Animation_emits W H fuel st animID animate libID picIDs picIDe x y
      interval hf
  | ICON_AnimationControl state => exact DWIN_ICON_AnimationControl_emits fuel st state hf

theorem Command.body_length (W H : Nat) (cmd : Command) (hns : cmd.isString = false) :
    cmd.frameLength = some ((cmd.body W H).length + 5) ∧ (cmd.body W H).length ≤ 14 := by
  cases cmd <;> simp [Command.isString] at hns <;>
    simp [Command.frameLength, Command.body]

/-- C17: every command other than `DWIN_Draw_String` sends a frame whose
length is fixed by the command alone (query 6, refresh 6, brightness 7,
clear 8, cache JPG 8, show+cache 8, animation control 8, orientation 9, icon
show by library 12, by address 13, point 14, icon animation 15, line 16,
rectangle 17, area move 19) and stores to no buffer index above 14, which is
inside the buffer of `11 + DWIN_WIDTH/6*2` bytes for every `DWIN_WIDTH ≥ 12`. -/
theorem fixed_frame_lengths (W H fuel : Nat) (st : Lcd) (cmd : Command) (hf : 256 ≤ fuel)
    (hns : cmd.isString = false) :
    ∃ (st2 : Lcd) (i : Nat) (frame new : List Nat),
      cmd.run W H fuel st = some (st2, i)
        ∧ st2.serial = st.serial ++ frame
        ∧ cmd.frameLength = some frame.length
        ∧ st2.stores = st.stores ++ new
        ∧ (∀ k ∈ new, k ≤ 14)
        ∧ (12 ≤ W → ∀ k ∈ new, k < SendBufSize W) := by
  obtain ⟨st2, h1, h2, h3, _⟩ := Command.run_emits W H fuel st cmd hf (by simp [hns])
  obtain ⟨hl, hle⟩ := Command.body_length W H cmd hns
  refine ⟨st2, _, _, _, h1, h2, ?_, h3, ?_, ?_⟩
  · rw [hl]
    simp
  · intro k hk
    rw [List.mem_range'_1] at hk
    omega
  · intro hW k hk
    rw [List.mem_range'_1] at hk
    have : 4 ≤ W / 6 * 2 := by omega
    unfold SendBufSize
    omega

theorem fixed_frame_lengths_witness :
    256 ≤ 256 ∧ (Command.Frame_AreaMove 1 2 40 0x001F 0 31 271 479).isString = false
      ∧ ∃ (st2 : Lcd) (i : Nat) (frame new : List Nat),
          (Command.Frame_AreaMove 1 2 40 0x001F 0 31 271 479).run 12 480 256 Lcd.init
              = some (st2, i)
            ∧ st2.serial = Lcd.init.serial ++ frame
            ∧ (Command.Frame_AreaMove 1 2 40 0x001F 0 31 271 479).frameLength
                = some frame.length
            ∧ st2.stores = Lcd.init.stores ++ new
            ∧ (∀ k ∈ new, k ≤ 14)
            ∧ (12 ≤ 12 → ∀ k ∈ new, k < SendBufSize 12) :=
  ⟨by decide, by decide,
   fixed_frame_lengths 12 480 256 Lcd.init _ (by decide) (by decide)⟩

theorem runCommands_header (W H fuel : Nat) (hf : 256 ≤ fuel) (cmds : List Command) :
    ∀ st : Lcd, st.DWIN_SendBuf 0 = 0xAA →
      (∀ c ∈ cmds, c.isString = true → SendBufSize W ≤ 255) →
      ∃ r : Lcd, runCommands W H fuel cmds st = some r ∧ r.DWIN_SendBuf 0 = 0xAA := by
  induction cmds with
  | nil => intro st h0 _; exact ⟨st, rfl, h0⟩
  | cons c cmds ih =>
    intro st h0 hW
    obtain ⟨st2, h1, _, _, h4⟩ :=
      Command.run_emits W H fuel st c hf (hW c (List.mem_cons_self c cmds))
    obtain ⟨r, hr, hr0⟩ := ih st2 (by rw [h4, h0])
      (fun d hd => hW d (List.mem_cons_of_mem c hd))
    exact ⟨r, by simp only [runCommands, h1, hr], hr0⟩

/-- C18: for every command and argument tuple, and for two prior buffer
contents that both hold 0xAA at index 0, the frames sent are the same bytes,
`0xAA`, the fields of the command and the tail; no store of the encoder is at
index 0, so `DWIN_SendBuf[0]` is still 0xAA after the command and after any
sequence of commands. The string command needs the buffer size to be at most
255 for its send loop to end. -/
theorem encoders_pure (W H fuel : Nat) (cmd : Command) (st1 st2 : Lcd)
    (h1 : st1.DWIN_SendBuf 0 = 0xAA) (h2 : st2.DWIN_SendBuf 0 = 0xAA) (hf : 256 ≤ fuel)
    (hW : cmd.isString = true → SendBufSize W ≤ 255) :
    (Sends (cmd.run W H fuel st1) st1 (0xAA :: (cmd.body W H ++ [0xCC, 0x33, 0xC3, 0x3C]))
        ∧ Sends (cmd.run W H fuel st2) st2
            (0xAA :: (cmd.body W H ++ [0xCC, 0x33, 0xC3, 0x3C])))
      ∧ (∃ (r : Lcd) (i : Nat) (new : List Nat), cmd.run W H fuel st1 = some (r, i)
          ∧ r.stores = st1.stores ++ new ∧ 0 ∉ new ∧ r.DWIN_SendBuf 0 = 0xAA)
      ∧ (∀ cmds : List Command, (∀ c ∈ cmds, c.isString = true → SendBufSize W ≤ 255) →
          ∃ r : Lcd, runCommands W H fuel cmds st1 = some r ∧ r.DWIN_SendBuf 0 = 0xAA) := by
  have e1 := Command.run_emits W H fuel st1 cmd hf hW
  have e2 := Command.run_emits W H fuel st2 cmd hf hW
  refine ⟨⟨h1 ▸ e1.sends, h2 ▸ e2.sends⟩, ?_, ?_⟩
  · obtain ⟨r, a1, _, a3, a4⟩ := e1
    refine ⟨r, _, _, a1, a3, ?_, by rw [a4, h1]⟩
    intro hmem
    rw [List.mem_range'_1] at hmem
    omega
  · intro cmds hcmds
    exact runCommands_header W H fuel hf cmds st1 h1 hcmds

theorem encoders_pure_witness :
    Lcd.init.DWIN_SendBuf 0 = 0xAA
      ∧ (⟨poke (poke SendBuf_init 1 0x11) 12 0x41, [], []⟩ : Lcd).DWIN_SendBuf 0 = 0xAA
      ∧ 256 ≤ 256
      ∧ ((Command.Frame_Clear 0xF800).isString = true → SendBufSize 272 ≤ 255)
      ∧ Sends ((Command.Frame_Clear 0xF800).run 272 480 256 Lcd.init) Lcd.init
          (0xAA :: ((Command.Frame_Clear 0xF800).body 272 480 ++ [0xCC, 0x33, 0xC3, 0x3C]))
      ∧ Sends ((Command.Frame_Clear 0xF800).run 272 480 256
            ⟨poke (poke SendBuf_init 1 0x11) 12 0x41, [], []⟩)
          ⟨poke (poke SendBuf_init 1 0x11) 12 0x41, [], []⟩
          (0xAA :: ((Command.Frame_Clear 0xF800).body 272 480 ++ [0xCC, 0x33, 0xC3, 0x3C])) :=
  have w := encoders_pure 272 480 256 (Command.Frame_Clear 0xF800) Lcd.init
    ⟨poke (poke SendBuf_init 1 0x11) 12 0x41, [], []⟩ (by decide) (by decide) (by decide)
    (fun _ => by decide)
  ⟨by decide, by decide, by decide, fun _ => by decide, w.1.1, w.1.2⟩

/-! ## Claim C19 -/

/-- C19: with `WITHIN(v, L, H)` the test of the closed range, `L ≤ v` and
`v ≤ H` on numbers, `BedLevelToolsClass::meshValidate` returns true exactly
when every grid value `z_values[x][y]` is a number, not NaN, and lies in the
closed range `[UBL_Z_OFFSET_MIN, UBL_Z_OFFSET_MAX]`; one grid point that is NaN,
or one that is a number outside the range, makes it return false. -/
theorem meshValidate_iff {α : Type} [LE α] (nx ny : Nat) (z : Nat → Nat → Option α)
    (WITHIN : Option α → α → α → Bool) (lo hi : α)
    (hW : ∀ a : α, WITHIN (some a) lo hi = true ↔ lo ≤ a ∧ a ≤ hi) :
    (BedLevelToolsClass.meshValidate nx ny z WITHIN lo hi = true
        ↔ ∀ x, x < nx → ∀ y, y < ny → ∃ a, z x y = some a ∧ lo ≤ a ∧ a ≤ hi)
      ∧ (∀ x y, x < nx → y < ny → z x y = none →
          BedLevelToolsClass.meshValidate nx ny z WITHIN lo hi = false)
      ∧ (∀ x y a, x < nx → y < ny → z x y = some a → ¬ (lo ≤ a ∧ a ≤ hi) →
          BedLevelToolsClass.meshValidate nx ny z WITHIN lo hi = false) := by
  have hpoint : ∀ v : Option α,
      (!(isnan v || !(WITHIN v lo hi))) = true ↔ ∃ a, v = some a ∧ lo ≤ a ∧ a ≤ hi := by
    intro v
    cases v with
    | none => simp [isnan]
    | some a => simp [isnan, hW a]
  have hiff : BedLevelToolsClass.meshValidate nx ny z WITHIN lo hi = true
      ↔ ∀ x, x < nx → ∀ y, y < ny → ∃ a, z x y = some a ∧ lo ≤ a ∧ a ≤ hi := by
    simp only [BedLevelToolsClass.meshValidate, List.all_eq_true, List.mem_range, hpoint]
  refine ⟨hiff, ?_, ?_⟩
  · intro x y hx hy hnan
    cases hres : BedLevelToolsClass.meshValidate nx ny z WITHIN lo hi with
    | false => rfl
    | true =>
      obtain ⟨a, ha, _⟩ := hiff.mp hres x hx y hy
      rw [hnan] at ha
      cases ha
  · intro x y a hx hy hval hout
    cases hres : BedLevelToolsClass.meshValidate nx ny z WITHIN lo hi with
    | false => rfl
    | true =>
      obtain ⟨b, hb, hin⟩ := hiff.mp hres x hx y hy
      rw [hval] at hb
      cases hb
      exact absurd hin hout

theorem meshValidate_iff_witness :
    (∀ a : Int, closedRange (some a) (-9) 9 = true ↔ -9 ≤ a ∧ a ≤ 9)
      ∧ (BedLevelToolsClass.meshValidate 2 3 (fun x y => some ((x : Int) * 9 - y)) closedRange
            (-9) 9 = true
          ↔ ∀ x : Nat, x < 2 → ∀ y : Nat, y < 3 →
              ∃ a, (some ((x : Int) * 9 - (y : Int)) : Option Int) = some a
                ∧ -9 ≤ a ∧ a ≤ 9)
      ∧ BedLevelToolsClass.meshValidate 2 3 (fun x y => some ((x : Int) * 9 - y)) closedRange
          (-9) 9 = true
      ∧ BedLevelToolsClass.meshValidate 2 3
          (fun x y => if x = 1 ∧ y = 2 then none else some 0) closedRange (-9) 9 = false
      ∧ BedLevelToolsClass.meshValidate 2 3
          (fun x y => if x = 1 ∧ y = 2 then some 10 else some 0) closedRange (-9) 9 = false :=
  have hW : ∀ a : Int, closedRange (some a) (-9) 9 = true ↔ -9 ≤ a ∧ a ≤ 9 := by
    intro a
    simp [closedRange]
  ⟨hW,
   (meshValidate_iff 2 3 (fun x y => some ((x : Int) * 9 - y)) closedRange (-9) 9 hW).1,
   by decide, by decide, by decide⟩

/-! ## Claim C21: success persists -/

theorem HandshakeGood_result (h : Handshake) (hg : HandshakeGood h) :
    handshakeResult h = true := by
  obtain ⟨g4, g0, g1, g2, g3⟩ := hg
  have h3 : 3 ≤ h.recnum := by omega
  simp [handshakeResult, h3, g0, g1, g2, g3]

theorem HandshakeGood_of_result (h : Handshake) (hinv : HandshakeInv h)
    (hres : handshakeResult h = true) : HandshakeGood h := by
  simp only [handshakeResult, Bool.and_eq_true, decide_eq_true_eq, beq_iff_eq] at hres
  obtain ⟨⟨⟨⟨_, g0⟩, g1⟩, g2⟩, g3⟩ := hres
  refine ⟨?_, g0, g1, g2, g3⟩
  by_contra hlt
  have hz := hinv.2.2 3 (by omega) (by omega)
  rw [g3] at hz
  omega

theorem HandshakeGood_readLoop (s : List Nat) (h : Handshake) (hg : HandshakeGood h) :
    HandshakeGood (readLoop s h).1 := by
  obtain ⟨n, d⟩ := h
  obtain ⟨g4, g0, g1, g2, g3⟩ := hg
  simp only at g4 g0 g1 g2 g3
  obtain ⟨k1, k2⟩ := readLoop_keep s n d (by omega) g0
  refine ⟨by omega, ?_, ?_, ?_, ?_⟩
  · rw [k2 0 (by omega)]; exact g0
  · rw [k2 1 (by omega)]; exact g1
  · rw [k2 2 (by omega)]; exact g2
  · rw [k2 3 (by omega)]; exact g3

theorem HandshakeGood_runCalls (later : List (List Nat)) :
    ∀ h : Handshake, HandshakeGood h → HandshakeGood (runCalls later h) := by
  induction later with
  | nil => intro h hg; exact hg
  | cons s later ih =>
    intro h hg
    exact ih _ (HandshakeGood_readLoop s h hg)

/-- C21: `recnum` and `databuf` are not reset on entry, so once a call of
`DWIN_Handshake`, made in a state that earlier calls from the initial state
left, has returned success, every later call returns success, whatever the
reply streams of the calls in between and of that call, the empty stream
included. -/
theorem handshake_success_persists (fuel fuel2 : Nat) (st st2 : Lcd)
    (calls later : List (List Nat)) (s t : List Nat) (hf : 256 ≤ fuel) (hf2 : 256 ≤ fuel2)
    (hok : handshakeVerdict fuel st (runCalls calls Handshake.init) s = some true) :
    handshakeVerdict fuel2 st2
        (runCalls later (readLoop s (runCalls calls Handshake.init)).1) t = some true
      ∧ handshakeVerdict fuel2 st2
          (runCalls later (readLoop s (runCalls calls Handshake.init)).1) [] = some true := by
  rw [handshakeVerdict_eq fuel st _ s hf] at hok
  have hres : handshakeResult (readLoop s (runCalls calls Handshake.init)).1 = true := by
    simpa using hok
  have hg := HandshakeGood_of_result _
    (HandshakeInv_readLoop s _ (HandshakeInv_reachable calls)) hres
  have hg2 := HandshakeGood_runCalls later _ hg
  refine ⟨?_, ?_⟩
  · rw [handshakeVerdict_eq fuel2 st2 _ t hf2,
      HandshakeGood_result _ (HandshakeGood_readLoop t _ hg2)]
  · rw [handshakeVerdict_eq fuel2 st2 _ [] hf2,
      HandshakeGood_result _ (HandshakeGood_readLoop [] _ hg2)]

theorem handshake_success_persists_witness :
    256 ≤ 256 ∧ 256 ≤ 300
      ∧ handshakeVerdict 256 Lcd.init (runCalls [[0x00]] Handshake.init)
          [0x07, 0xA5, 0x00, 0x4F, 0x4B] = some true
      ∧ handshakeVerdict 300 Lcd.init
          (runCalls [[0x01, 0x02]]
            (readLoop [0x07, 0xA5, 0x00, 0x4F, 0x4B] (runCalls [[0x00]] Handshake.init)).1)
          [0xFF] = some true
      ∧ handshakeVerdict 300 Lcd.init
          (runCalls [[0x01, 0x02]]
            (readLoop [0x07, 0xA5, 0x00, 0x4F, 0x4B] (runCalls [[0x00]] Handshake.init)).1)
          [] = some true :=
  ⟨by decide, by decide, by decide,
   handshake_success_persists 256 300 Lcd.init Lcd.init [[0x00]] [[0x01, 0x02]]
     [0x07, 0xA5, 0x00, 0x4F, 0x4B] [0xFF] (by decide) (by decide) (by decide)⟩

/-! ## Claim C22: the 8-bit counter of `DWIN_Send` -/

/-- With a bound above 255 the counter, which stays below 256, never reaches
the bound: no amount of fuel is enough. -/
theorem writeLoop_diverges (src : Nat → Nat) (bound : Nat) (hb : 256 ≤ bound) :
    ∀ (fuel n : Nat) (out : List Nat), n < 256 → writeLoop src bound fuel n out = none := by
  intro fuel
  induction fuel with
  | zero => intro n out _; rfl
  | succ fuel ih =>
    intro n out hn
    unfold writeLoop
    rw [if_pos (by omega)]
    exact ih _ _ (Nat.mod_lt _ (by omega))

/-- With a bound of at most 255 the loop needs one unit of fuel per round and
one for the test that ends it. -/
theorem writeLoop_short_fuel (src : Nat → Nat) (bound : Nat) (hb : bound ≤ 255) :
    ∀ (fuel n : Nat) (out : List Nat), n ≤ bound → fuel ≤ bound - n →
      writeLoop src bound fuel n out = none := by
  intro fuel
  induction fuel with
  | zero => intro n out _ _; rfl
  | succ fuel ih =>
    intro n out hn hf
    unfold writeLoop
    have hmod : (n + 1) % 256 = n + 1 := Nat.mod_eq_of_lt (by omega)
    rw [if_pos (by omega), hmod]
    exact ih _ _ (by omega) (by omega)

theorem DWIN_Send_diverges (fuel : Nat) (st : Lcd) (c : Nat) (hc : 255 ≤ c)
    (hmax : c < SIZE_MAX) :
    DWIN_Send fuel (st, c) = none := by
  have hwrap : (c + 1) % (SIZE_MAX + 1) = c + 1 := Nat.mod_eq_of_lt (by omega)
  unfold DWIN_Send
  simp only [hwrap]
  rw [writeLoop_diverges _ (c + 1) (by omega) fuel 0 _ (by omega)]

/-- At `SIZE_MAX` the increment wraps the cursor to 0: the buffer loop makes no
round and only the tail is written. -/
theorem DWIN_Send_at_SIZE_MAX (fuel : Nat) (st : Lcd) (hf5 : 5 ≤ fuel) :
    DWIN_Send fuel (st, SIZE_MAX)
      = some ({ st with serial := st.serial ++ [0xCC, 0x33, 0xC3, 0x3C] }, 0) := by
  have hwrap : (SIZE_MAX + 1) % (SIZE_MAX + 1) = 0 := Nat.mod_self _
  unfold DWIN_Send
  simp only [hwrap]
  rw [writeLoop_eq _ 0 (by omega) fuel 0 _ (by omega) (by omega)]
  simp only []
  rw [writeLoop_eq _ 4 (by omega) fuel 0 _ (by omega) (by omega)]
  simp [List.range'_succ, DWIN_BufTail]

theorem Command.cursor_bound (W H : Nat) (cmd : Command) :
    (cmd.body W H).length + 1 ≤ SendBufSize W
      ∨ (cmd.isString = false ∧ (cmd.body W H).length ≤ 14) := by
  cases hs : cmd.isString with
  | false => exact Or.inr ⟨rfl, (Command.body_length W H cmd hs).2⟩
  | true =>
    left
    cases cmd <;> simp [Command.isString] at hs
    simp only [Command.body, List.length_append, List.length_cons, List.length_nil,
      List.length_take]
    unfold textLen SendBufSize
    omega

/-- C22, as stated, fails at the largest cursor: `SIZE_MAX` is at least 255,
and there `DWIN_Send` returns, with the cursor wrapped to 0 and only the four
tail bytes written. -/
theorem send_returns_at_SIZE_MAX :
    255 ≤ SIZE_MAX
      ∧ (DWIN_Send 5 (Lcd.init, SIZE_MAX)).map (fun r => (r.1.serial, r.2))
          = some ([0xCC, 0x33, 0xC3, 0x3C], 0) := by
  refine ⟨by unfold SIZE_MAX; omega, ?_⟩
  rw [DWIN_Send_at_SIZE_MAX 5 Lcd.init (by omega)]
  rfl

/-- C22, amended: `DWIN_Send` compares an 8-bit counter with the `size_t`
cursor. For a cursor `c ≤ 254` on entry the buffer loop ends after exactly
`c + 1` rounds: it returns with fuel for `c + 1` rounds and the closing test,
not with less, and has then written `c + 1` bytes. For `255 ≤ c < SIZE_MAX`
the counter wraps modulo 256 and never reaches `c + 1`: the loop, and with it
`DWIN_Send`, returns for no amount of fuel. At `c = SIZE_MAX` the increment
wraps the cursor to 0 and `DWIN_Send` writes only the tail. When the buffer
size `11 + DWIN_WIDTH/6*2` is at most 255, every encoder hands `DWIN_Send` a
cursor of at most 254 and returns; the cursor is below the buffer size (for
the fixed-length commands when `DWIN_WIDTH ≥ 12`). -/
theorem send_loop_counter :
    (∀ (src : Nat → Nat) (out : List Nat) (c fuel : Nat), c ≤ 254 →
        (c + 2 ≤ fuel →
            writeLoop src (c + 1) fuel 0 out = some (out ++ (List.range (c + 1)).map src)
              ∧ (out ++ (List.range (c + 1)).map src).length = out.length + (c + 1))
          ∧ (fuel < c + 2 → writeLoop src (c + 1) fuel 0 out = none))
      ∧ (∀ (src : Nat → Nat) (out : List Nat) (c fuel : Nat) (st : Lcd),
          255 ≤ c → c < SIZE_MAX →
          writeLoop src (c + 1) fuel 0 out = none ∧ DWIN_Send fuel (st, c) = none)
      ∧ (∀ (fuel : Nat) (st : Lcd), 5 ≤ fuel →
          DWIN_Send fuel (st, SIZE_MAX)
            = some ({ st with serial := st.serial ++ [0xCC, 0x33, 0xC3, 0x3C] }, 0))
      ∧ (∀ (W H fuel : Nat) (st : Lcd) (cmd : Command), SendBufSize W ≤ 255 → 256 ≤ fuel →
          ∃ (r : Lcd) (c : Nat), cmd.run W H fuel st = some (r, c + 1) ∧ c ≤ 254
            ∧ (12 ≤ W → c < SendBufSize W)) := by
  refine ⟨?_, ?_, ?_, ?_⟩
  · intro src out c fuel hc
    refine ⟨?_, ?_⟩
    · intro hf
      refine ⟨?_, by simp⟩
      rw [writeLoop_eq src (c + 1) (by omega) fuel 0 out (by omega) (by omega)]
      simp [List.range_eq_range']
    · intro hf
      exact writeLoop_short_fuel src (c + 1) (by omega) fuel 0 out (by omega) (by omega)
  · intro src out c fuel st hc hmax
    exact ⟨writeLoop_diverges src (c + 1) (by omega) fuel 0 out (by omega),
      DWIN_Send_diverges fuel st c hc hmax⟩
  · intro fuel st hf5
    exact DWIN_Send_at_SIZE_MAX fuel st hf5
  · intro W H fuel st cmd hW hf
    obtain ⟨r, h1, _, _, _⟩ := Command.run_emits W H fuel st cmd hf (fun _ => hW)
    refine ⟨r, _, h1, ?_, ?_⟩
    · rcases Command.cursor_bound W H cmd with h | h
      · omega
      · omega
    · intro h12
      rcases Command.cursor_bound W H cmd with h | h
      · omega
      · have : 4 ≤ W / 6 * 2 := by omega
        unfold SendBufSize
        omega

end Dwin
